import Mathlib

/-!
# Verification of the walnut-cli EVM call-tree reconstruction core

Shallow embedding of the Python sources under `src/soldb/`
(`transaction_tracer.py`, `abi_utils.py`, `multi_contract_ethdebug_parser.py`)
together with proofs about the embedded definitions.

Python strings are modelled as Lean `String`; Python slicing and the other
string primitives used by the source are re-implemented character-wise
(Python slices operate on code points, as do the `List Char` operations
used here).  Python `int` is modelled as `Int`/`Nat`; `None` as `Option`;
exceptions that the source does not catch as `Except Unit`.
-/

namespace Walnut

/-- Python `s[n:]` (character based). -/
def pyDrop (s : String) (n : Nat) : String := ⟨s.data.drop n⟩

/-- Python `s[:n]` for `n ≥ 0` (character based). -/
def pyTake (s : String) (n : Nat) : String := ⟨s.data.take n⟩

/-- Python `s[-n:]` for `n ≥ 1`: the last `n` characters (all of `s` when
`n ≥ len(s)`, which is what `Nat` subtraction gives). -/
def pyLast (s : String) (n : Nat) : String := ⟨s.data.drop (s.data.length - n)⟩

/-- Python `len(s)` (code points). -/
def pyLen (s : String) : Nat := s.data.length

/-- Python `s.startswith(t)`. -/
def pyStarts (s t : String) : Bool := t.data.isPrefixOf s.data

/-- Python `s.endswith(t)`. -/
def pyEnds (s t : String) : Bool := t.data.isSuffixOf s.data

/-- Python `t in s` (substring containment) on char lists. -/
def listHasSub : List Char → List Char → Bool
  | s, t =>
    if t.isPrefixOf s then true
    else match s with
      | [] => false
      | _ :: rest => listHasSub rest t

/-- Python `t in s` (substring containment). -/
def pyHasSub (s t : String) : Bool := listHasSub s.data t.data

/-- Python `s.zfill(n)`. -/
def pyZfill (s : String) (n : Nat) : String :=
  ⟨List.replicate (n - s.data.length) '0' ++ s.data⟩

/-- Python `enumerate(l, i)`. -/
def enumerateFrom (i : Nat) : List α → List (Nat × α)
  | [] => []
  | a :: rest => (i, a) :: enumerateFrom (i + 1) rest

/-- Python `enumerate(l)`. -/
def enumerate (l : List α) : List (Nat × α) := enumerateFrom 0 l

/-- Value of one hexadecimal digit. -/
def hexDigitVal? (c : Char) : Option Nat :=
  if '0' ≤ c ∧ c ≤ '9' then some (c.toNat - '0'.toNat)
  else if 'a' ≤ c ∧ c ≤ 'f' then some (c.toNat - 'a'.toNat + 10)
  else if 'A' ≤ c ∧ c ≤ 'F' then some (c.toNat - 'A'.toNat + 10)
  else none

/-- Big-endian value of a non-empty list of hex digits; `none` if empty or
some character is not a hex digit. -/
def hexDigitsVal? (l : List Char) : Option Nat :=
  match l with
  | [] => none
  | _ =>
    l.foldl (fun acc c =>
      match acc, hexDigitVal? c with
      | some a, some d => some (a * 16 + d)
      | _, _ => none) (some 0)

/-- Python `int(s, 16)` restricted to the inputs the source feeds it:
an optional `0x`/`0X` prefix followed by at least one hex digit.
`none` models the `ValueError` raised otherwise. -/
def pyIntHex? (s : String) : Option Nat :=
  let l := if pyStarts s "0x" || pyStarts s "0X" then s.data.drop 2 else s.data
  hexDigitsVal? l

/-- Value of one decimal digit. -/
def decDigitVal? (c : Char) : Option Nat :=
  if '0' ≤ c ∧ c ≤ '9' then some (c.toNat - '0'.toNat) else none

/-- Python `int(s)` restricted to strings of decimal digits; `none` models
the `ValueError` on anything else (in particular the empty string). -/
def pyIntDec? (s : String) : Option Nat :=
  match s.data with
  | [] => none
  | l =>
    l.foldl (fun acc c =>
      match acc, decDigitVal? c with
      | some a, some d => some (a * 10 + d)
      | _, _ => none) (some 0)

/-- A decoded Python value (the `Any` results produced by the tracer). -/
inductive PyVal where
  | int (i : Int)
  | str (s : String)
  | bool (b : Bool)
deriving Repr, DecidableEq, Inhabited

/--
`TransactionTracer.decode_value` (transaction_tracer.py, lines 1031-1067).
`checksum` models `eth_utils.to_checksum_address`, which the session fixes;
it is assumed total (the source wraps its uses in `try`).  The source's
outer `except` catches the `ValueError`s of the `int(...)` calls; those
paths return the raw hex string, as here.  For `intN`, Python computes
`2**(bits-1)`; for `bits = 0` that is the float `0.5`, and an integer is
`≥ 0.5` iff it is `≥ 1 = 2^0`, so `Nat` subtraction in the exponent gives
the same comparison for every `bits`.
-/
def decode_value (checksum : String → String) (raw0 : String) (param_type : String) : PyVal :=
  if raw0 = "" then
    (if pyStarts param_type "uint" || pyStarts param_type "int" then .int 0 else .str "0x")
  else
    let raw := if pyStarts raw0 "0x" then pyDrop raw0 2 else raw0
    if param_type = "uint256" || pyStarts param_type "uint" then
      match pyIntHex? raw with
      | some v => .int v
      | none => .str ("0x" ++ raw)
    else if param_type = "int256" || pyStarts param_type "int" then
      match pyIntHex? raw, pyIntDec? (pyDrop param_type 3) with
      | some v, some bits =>
          if (v : Int) ≥ (2 : Int) ^ (bits - 1) then .int ((v : Int) - 2 ^ bits) else .int v
      | _, _ => .str ("0x" ++ raw)
    else if param_type = "address" then
      .str (checksum ("0x" ++ pyLast raw 40))
    else if param_type = "bool" then
      match pyIntHex? raw with
      | some v => .bool (v ≠ 0)
      | none => .str ("0x" ++ raw)
    else if param_type = "bytes32" || pyStarts param_type "bytes" then
      .str ("0x" ++ raw)
    else if param_type = "string" then
      .str ("<string at 0x" ++ raw ++ ">")
    else
      .str ("0x" ++ raw)

/-! ## abi_utils.py -/

/-- `match_single_type` (abi_utils.py, lines 17-34), on char lists.
The four tests are in the source's order; the recursion on the `[]`-array
case strips the two trailing brackets from both sides. -/
def match_single_chars (p a : List Char) : Bool :=
  if p = a then true
  else if ['('].isPrefixOf p && [')'].isSuffixOf p && a = "tuple".data then true
  else if h : (['[', ']'].isSuffixOf p && ['[', ']'].isSuffixOf a) = true then
    match_single_chars (p.take (p.length - 2)) (a.take (a.length - 2))
  else if p.contains '(' && a = "tuple".data then true
  else false
termination_by p.length
decreasing_by
  simp only [Bool.and_eq_true, List.isSuffixOf_iff_suffix] at h
  have hp : 2 ≤ p.length := by
    have := h.1.length_le
    simpa using this
  simp only [List.length_take]
  omega

/-- `match_single_type` (abi_utils.py, lines 17-34). -/
def match_single_type (parsed_type abi_type : String) : Bool :=
  match_single_chars parsed_type.data abi_type.data

/-- `match_abi_types` (abi_utils.py, lines 8-15). -/
def match_abi_types (parsed_types abi_types : List String) : Bool :=
  if parsed_types.length ≠ abi_types.length then false
  else (parsed_types.zip abi_types).all fun (p, a) => match_single_type p a

/-! ## multi_contract_ethdebug_parse.py: execution-context stack -/

/-- `ETHDebugInfo` restricted to the fields the analysed code reads. -/
structure EthdebugInfo where
  contract_name : String
  instructions : List Nat
deriving Repr, DecidableEq, Inhabited

/-- One source row returned by `ETHDebugParser.get_source_context`. -/
structure SourceCtx where
  line : Int
  content : String
deriving Repr, DecidableEq, Inhabited

/-- A parser object is observed only through `get_source_context(pc)`. -/
def ParserFun := Nat → Option SourceCtx

instance : Inhabited ParserFun := ⟨fun _ => none⟩

/-- `ContractDebugInfo` (multi_contract_ethdebug_parse.py, lines 19-25). -/
structure ContractDebugInfo where
  address : String
  name : String
  ethdebug_info : Option EthdebugInfo
  parser : ParserFun

/-- `ExecutionContext` (multi_contract_ethdebug_parse.py, lines 28-36). -/
structure ExecutionContext where
  address : String
  debug_info : Option EthdebugInfo
  pc_offset : Nat := 0
  call_type : String := "CALL"

/-- The mutable state of a `MultiContractETHDebugParser`: the contract
registry (keyed by checksummed address) and the execution stack, top last. -/
structure MCParser where
  contracts : String → Option ContractDebugInfo
  execution_stack : List ExecutionContext

/-- `get_contract_at_address` (multi_contract_ethdebug_parser.py,
lines 217-220): the lookup key is the checksummed address.  The source's
`to_checksum_address` raises an uncaught `ValueError` on a malformed
address (one that is not 20 bytes of hex); `checksum` models it as a
function on the well-formed addresses only, so every statement below
exercises it only at well-formed (40-hex-digit, `0x`-prefixed)
addresses, where the source call succeeds. -/
def get_contract_at_address (checksum : String → String) (mc : MCParser)
    (address : String) : Option ContractDebugInfo :=
  mc.contracts (checksum address)

/-- `push_context` (multi_contract_ethdebug_parser.py, lines 222-234):
pushes and returns a context only when the address is registered. -/
def push_context (checksum : String → String) (mc : MCParser)
    (address : String) (call_type : String := "CALL") (pc_offset : Nat := 0) :
    MCParser × Option ExecutionContext :=
  match get_contract_at_address checksum mc address with
  | some contract_info =>
      let context : ExecutionContext :=
        { address := address, debug_info := contract_info.ethdebug_info
          pc_offset := pc_offset, call_type := call_type }
      ({ mc with execution_stack := mc.execution_stack ++ [context] }, some context)
  | none => (mc, none)

/-- `pop_context` (multi_contract_ethdebug_parse.py, lines 236-240). -/
def pop_context (mc : MCParser) : MCParser × Option ExecutionContext :=
  match mc.execution_stack.getLast? with
  | some context => ({ mc with execution_stack := mc.execution_stack.dropLast }, some context)
  | none => (mc, none)

/-- `get_current_context` (multi_contract_ethdebug_parse.py, lines 242-246). -/
def get_current_context (mc : MCParser) : Option ExecutionContext :=
  mc.execution_stack.getLast?

/-- `get_source_info_for_address` (multi_contract_ethdebug_parser.py,
lines 248-262). -/
def get_source_info_for_address (checksum : String → String) (mc : MCParser)
    (address : String) (pc : Nat) : Option SourceCtx :=
  match get_contract_at_address checksum mc address with
  | none => none
  | some contract_info => contract_info.parser pc

/-! ## transaction_tracer.py: data model -/

/-- `TraceStep` (transaction_tracer.py, lines 52-63), the fields the
analysed code reads.  The stack list is bottom-first (`stack[-1]` is the
top), exactly as in the geth trace the source consumes. -/
structure TraceStep where
  pc : Nat
  op : String
  gas : Int
  gas_cost : Int := 0
  depth : Nat
  stack : List String
  memory : Option String := none
deriving Repr, DecidableEq, Inhabited

/-- `TransactionTrace` (transaction_tracer.py, lines 86-101). -/
structure TransactionTrace where
  tx_hash : String := ""
  from_addr : String := ""
  to_addr : Option String
  value : Int := 0
  input_data : String
  gas_used : Int := 0
  output : String := ""
  steps : List TraceStep
  success : Bool := true
  contract_address : Option String := none
deriving Repr, Inhabited

/-- `FunctionCall` (transaction_tracer.py, lines 23-42). -/
structure FunctionCall where
  name : String
  selector : String
  entry_step : Option Int
  exit_step : Option Int
  gas_used : Int
  depth : Nat
  args : List (String × Option PyVal)
  return_value : Option PyVal := none
  source_line : Option Int := none
  stack_at_entry : Option (List String) := none
  call_type : String := "internal"
  contract_address : Option String := none
  parent_entry_step : Option Int := none
  call_id : Nat := 0
  caused_revert : Bool := false
  parent_call_id : Option Nat := none
  children_call_ids : List Nat := []
deriving Repr, DecidableEq, Inhabited

/-- One ABI input parameter (`{'name': ..., 'type': ...}`). -/
structure AbiParam where
  name : String
  type : String
deriving Repr, DecidableEq, Inhabited

/-- One ABI entry as stored in `function_abis_by_name`. -/
structure AbiEntry where
  inputs : List AbiParam
deriving Repr, DecidableEq, Inhabited

/-- The tracer attributes that `analyze_function_calls` reads but never
writes during one analysis: the loaded registries, the signature lookup
(`lookup_function_signature`, modelled as the fixed function the network
realises), the calldata decoder `decode_function_parameters` (a pure
function of the loaded ABIs), the ETHDebug variable query
`find_parameter_value_from_ethdebug` (step index, name, type), and
`eth_utils.to_checksum_address`. -/
structure TracerEnv where
  multi_contract : Option MCParser
  function_signatures : String → Option String
  lookup_function_signature : String → Option String
  decode_function_parameters : String → String → List (String × Option PyVal)
  function_abis_by_name : String → Option AbiEntry
  find_parameter_value_from_ethdebug : Nat → String → String → Option PyVal
  checksum : String → String

/-- The tracer attributes that `analyze_function_calls` mutates:
`self.ethdebug_info` and `self.ethdebug_parser` (switched when execution
enters a registered contract and restored from saved contexts). -/
structure TracerState where
  ethdebug_info : Option EthdebugInfo
  ethdebug_parse : ParserFun

/-- Python `l[-k]` (defaulting; callers guarantee `k ≤ len l`). -/
def getNeg (l : List String) (k : Nat) : String := l.getD (l.length - k) ""

/-! ## transaction_tracer.py: helpers used by the call-tree pass -/

/-- `extract_address_from_stack` (transaction_tracer.py, lines 335-349).
`checksum` is total, so the `except` fallback is not taken. -/
def extract_address_from_stack (checksum : String → String) (stack_value : String) : String :=
  let sv := if pyStarts stack_value "0x" then pyDrop stack_value 2 else stack_value
  let sv := pyZfill sv 64
  let addr_hex := pyLast sv 40
  checksum ("0x" ++ addr_hex)

/-- `extract_address_from_memory` (transaction_tracer.py, lines 351-387). -/
def extract_address_from_memory (checksum : String → String) (memory : String)
    (offset : Nat) : Option String :=
  let start_pos := offset * 2
  if start_pos + 64 > pyLen memory then none
  else
    let word := pyTake (pyDrop memory start_pos) 64
    let addr_hex := pyLast word 40
    if addr_hex = String.mk (List.replicate 40 '0') then none
    else some (checksum ("0x" ++ addr_hex))

/-- `is_likely_memory_offset` (transaction_tracer.py, lines 415-426). -/
def is_likely_memory_offset (value : String) : Bool :=
  match pyIntHex? value with
  | some v => v < 0x1000
  | none => false

/-- `format_address_display` (transaction_tracer.py, lines 428-449),
for a string address (every caller passes one). -/
def format_address_display (checksum : String → String) (mc? : Option MCParser)
    (address : String) (short : Bool := true) : String :=
  if address = "" then "<unknown>"
  else
    let contract_name : Option String :=
      match mc? with
      | some mc => (get_contract_at_address checksum mc address).map (·.name)
      | none => none
    let addr_display :=
      if short && pyLen address > 10 then pyTake address 6 ++ "..." ++ pyLast address 4
      else address
    match contract_name with
    | some n => n ++ " (" ++ addr_display ++ ")"
    | none => addr_display

/-- Parse a list of hex characters as bytes (two digits per byte);
`none` models the exception `eth_utils.decode_hex` raises on a non-hex
character.  Callers have already padded to even length. -/
def hexPairsToBytes? : List Char → Option (List Nat)
  | [] => some []
  | c1 :: c2 :: rest =>
    match hexDigitVal? c1, hexDigitVal? c2, hexPairsToBytes? rest with
    | some h, some l, some bs => some ((h * 16 + l) :: bs)
    | _, _, _ => none
  | [_] => none

/-- Lowercase hex rendering of a byte list (`bytes.hex()`). -/
def bytesToHex (bs : List Nat) : String :=
  ⟨bs.foldr (fun b acc =>
    (Nat.digitChar (b / 16 % 16)) :: (Nat.digitChar (b % 16)) :: acc) []⟩

/-- Lift an optional value into `Except`, erroring on `none` (models an
uncaught Python exception). -/
def liftOpt : Option α → Except Unit α
  | some a => .ok a
  | none => .error ()

/-- `extract_calldata_from_step` (transaction_tracer.py, lines 390-413).
Returns `none` when fewer than 7 stack items or no memory; a hex-parse
failure is an uncaught `ValueError` in the source, hence `.error`. -/
def extract_calldata_from_step (step : TraceStep) : Except Unit (Option String) :=
  if step.stack.length < 7 || step.memory = none || step.memory = some "" then .ok none
  else do
    let args_offset ← liftOpt (pyIntHex? (getNeg step.stack 4))
    let args_size ← liftOpt (pyIntHex? (getNeg step.stack 5))
    let memory := step.memory.getD ""
    let mem_hex := if pyStarts memory "0x" then pyDrop memory 2 else memory
    let mem_hex := if mem_hex.data.length % 2 ≠ 0 then "0" ++ mem_hex else mem_hex
    let memory_bytes ← liftOpt (hexPairsToBytes? mem_hex.data)
    let calldata := (memory_bytes.drop args_offset).take args_size
    pure (some ("0x" ++ bytesToHex calldata))

/-! ### `_extract_function_name` (transaction_tracer.py, lines 1863-1880)
and its four regular expressions, matched in the source's order by a
left-to-right scan (`re.search`). -/

/-- Python `\s` on the ASCII source text the patterns are applied to. -/
def isSpaceCh (c : Char) : Bool :=
  c = ' ' || c = '\t' || c = '\n' || c = '\x0d' || c = '\x0b' || c = '\x0c'

/-- Python `\w` on ASCII text. -/
def isWordCh (c : Char) : Bool :=
  ('a' ≤ c && c ≤ 'z') || ('A' ≤ c && c ≤ 'Z') || ('0' ≤ c && c ≤ '9') || c = '_'

/-- Strip an exact literal from the front of a char list. -/
def stripLit : List Char → List Char → Option (List Char)
  | [], l => some l
  | _ :: _, [] => none
  | c :: cs, d :: ds => if c = d then stripLit cs ds else none

/-- Try `function\s+(\w+)\s*\(` anchored at the head of the list; the
character classes are pairwise disjoint, so greedy matching needs no
backtracking. -/
def matchFunctionAt (l : List Char) : Option String :=
  match stripLit "function".data l with
  | none => none
  | some rest =>
    let sp := rest.takeWhile isSpaceCh
    if sp.isEmpty then none
    else
      let rest := rest.dropWhile isSpaceCh
      let w := rest.takeWhile isWordCh
      if w.isEmpty then none
      else
        match (rest.dropWhile isWordCh).dropWhile isSpaceCh with
        | '(' :: _ => some ⟨w⟩
        | _ => none

/-- Try `constructor\s*\(` anchored at the head of the list. -/
def matchConstructorAt (l : List Char) : Option Unit :=
  match stripLit "constructor".data l with
  | none => none
  | some rest =>
    match rest.dropWhile isSpaceCh with
    | '(' :: _ => some ()
    | _ => none

/-- Try `NAME\s*\(\s*\)` anchored at the head of the list (`fallback` and
`receive`; the trailing `(external)?` of the receive pattern is optional
and cannot make the match fail). -/
def matchEmptyParensAt (nameLit : String) (l : List Char) : Option Unit :=
  match stripLit nameLit.data l with
  | none => none
  | some rest =>
    match rest.dropWhile isSpaceCh with
    | '(' :: rest2 =>
      match rest2.dropWhile isSpaceCh with
      | ')' :: _ => some ()
      | _ => none
    | _ => none

/-- `re.search`: try the anchored matcher at every position, left to right. -/
def scanFor (f : List Char → Option α) : List Char → Option α
  | [] => f []
  | c :: rest =>
    match f (c :: rest) with
    | some r => some r
    | none => scanFor f rest

/-- `_extract_function_name` (transaction_tracer.py, lines 1863-1880). -/
def _extract_function_name (source_line : String) : Option String :=
  if source_line = "" then none
  else
    match scanFor matchFunctionAt source_line.data with
    | some n => some n
    | none =>
      if (scanFor matchConstructorAt source_line.data).isSome then some "constructor"
      else if (scanFor (matchEmptyParensAt "fallback") source_line.data).isSome then some "fallback"
      else if (scanFor (matchEmptyParensAt "receive") source_line.data).isSome then some "receive"
      else none

/-- `get_source_context_for_step` (transaction_tracer.py, lines 283-291).
`self.ethdebug_parser` is an always-present object (truthy); the single
contract branch therefore only tests `self.ethdebug_info`. -/
def get_source_context_for_step (env : TracerEnv) (st : TracerState)
    (step : TraceStep) (address : Option String) : Option SourceCtx :=
  match env.multi_contract, address with
  | some mc, some a =>
    if a ≠ "" then get_source_info_for_address env.checksum mc a step.pc
    else if st.ethdebug_info.isSome then st.ethdebug_parse step.pc
    else none
  | some _, none =>
    if st.ethdebug_info.isSome then st.ethdebug_parse step.pc else none
  | none, _ =>
    if st.ethdebug_info.isSome then st.ethdebug_parse step.pc else none

/-- `_detect_internal_call` (transaction_tracer.py, lines 1773-1805).
`stackFrames` holds the frames currently on the builder's call stack,
bottom first.  No test relates the step to a preceding jump, and the
duplicate guard compares only name, contract and openness. -/
def _detect_internal_call (env : TracerEnv) (st : TracerState) (step : TraceStep)
    (step_idx : Nat) (current_contract : Option String)
    (stackFrames : List FunctionCall) : Option FunctionCall :=
  match get_source_context_for_step env st step current_contract with
  | none => none
  | some context =>
    match _extract_function_name context.content with
    | none => none
    | some func_name =>
      if stackFrames.any (fun fc =>
          fc.name = func_name && fc.contract_address = current_contract &&
          fc.exit_step = none) then none
      else some
        { name := func_name, selector := "", entry_step := some step_idx,
          exit_step := none, gas_used := 0, depth := stackFrames.length,
          args := [], call_type := "internal",
          contract_address := current_contract,
          source_line := some context.line }

/-- `_find_contract_definition_line` (transaction_tracer.py, lines 2012-2022). -/
def _find_contract_definition_line (ci : ContractDebugInfo) : Option Int :=
  match ci.ethdebug_info with
  | none => none
  | some info =>
    (info.instructions.take 20).findSome? fun pc =>
      match ci.parser pc with
      | some context =>
        if pyHasSub context.content "contract " then some context.line else none
      | none => none

/-- `_create_dispatcher_call` (transaction_tracer.py, lines 1812-1861). -/
def _create_dispatcher_call (env : TracerEnv) (st : TracerState)
    (trace : TransactionTrace) : FunctionCall :=
  let is_creation := trace.to_addr = none ||
    trace.to_addr = some "0x0000000000000000000000000000000000000000"
  let byMc : Option (Option String × Option Int) :=
    match env.multi_contract, trace.to_addr with
    | some mc, some ta =>
      if ta ≠ "" then
        some (match get_contract_at_address env.checksum mc ta with
          | some ci => (some ci.name, _find_contract_definition_line ci)
          | none => (none, none))
      else none
    | _, _ => none
  let cns : Option String × Option Int :=
    match byMc with
    | some r => r
    | none =>
      match st.ethdebug_info with
      | some info => (some info.contract_name, none)
      | none => (none, none)
  let contract_name := cns.1.getD "Contract"
  let entry_name :=
    if is_creation then contract_name ++ "::constructor"
    else contract_name ++ "::runtime_dispatcher"
  let contract_address :=
    if is_creation then trace.contract_address else trace.to_addr
  { name := entry_name, selector := "", entry_step := some 0,
    exit_step := some ((trace.steps.length : Int) - 1),
    gas_used := trace.gas_used, depth := 0, args := [], call_type := "entry",
    contract_address := contract_address, source_line := cns.2 }

/-- `_process_external_call` (transaction_tracer.py, lines 1884-1932).
The target address comes from `extract_address_from_stack` on the second
stack word from the top; no memory read is involved on this path. -/
def _process_external_call (env : TracerEnv) (step : TraceStep) (step_idx : Nat)
    (current_depth : Nat) : Except Unit (Option FunctionCall) :=
  if step.stack.length < 7 then .ok none
  else do
    let to_addr := extract_address_from_stack env.checksum (getNeg step.stack 2)
    let calldata? ← extract_calldata_from_step step
    let contract_name :=
      let base := format_address_display env.checksum env.multi_contract to_addr
      match env.multi_contract with
      | some mc =>
        match get_contract_at_address env.checksum mc to_addr with
        | some ci => ci.name
        | none => base
      | none => base
    let fsd : String × Option String × List (String × Option PyVal) :=
      match calldata? with
      | some cd =>
        if cd ≠ "" ∧ pyLen cd ≥ 10 then
          let sel := pyTake cd 10
          match env.function_signatures sel with
          | some nm => (nm, some sel, env.decode_function_parameters sel cd)
          | none =>
            match env.lookup_function_signature sel with
            | some sig => (sig, some sel, [])
            | none => ("function_" ++ sel, some sel, [])
        else ("function_0x", none, [])
      | none => ("function_0x", none, [])
    pure (some
      { name := step.op ++ "  " ++ contract_name ++ "::" ++ fsd.1,
        selector := fsd.2.1.getD "", entry_step := some step_idx,
        exit_step := none, gas_used := 0, depth := current_depth + 1,
        args := fsd.2.2, call_type := step.op,
        contract_address := some to_addr })

/-- `_extract_created_address` (transaction_tracer.py, lines 1987-1997).
The source calls `extract_address_from_stack([step.stack[-1]])`, passing a
one-element *list* where a string is expected; `.startswith` on a list
raises an uncaught `AttributeError`.  The scan therefore errors at the
first `PUSH20` step with a non-empty stack in the window, and can only
return `none` (when no such step exists in the 9 inspected steps). -/
def _extract_created_address (create_step_idx : Nat) (trace : TransactionTrace) :
    Except Unit (Option String) :=
  let stop := min (create_step_idx + 10) trace.steps.length
  let idxs := List.range' (create_step_idx + 1) (stop - (create_step_idx + 1))
  if idxs.any (fun i =>
      let s := trace.steps.getD i default
      s.op = "PUSH20" && !s.stack.isEmpty) then
    .error ()
  else .ok none

/-- `_extract_memory_slice` (transaction_tracer.py, lines 1999-2010). -/
def _extract_memory_slice (step : TraceStep) (offset size : Nat) : Option String :=
  match step.memory with
  | none => none
  | some m =>
    if m = "" || size = 0 then none
    else
      let start := offset * 2
      let stop := start + size * 2
      if start < pyLen m ∧ stop ≤ pyLen m then some (pyTake (pyDrop m start) (size * 2))
      else none

/-- The stack-argument parsing at the head of `_process_create_call`
(transaction_tracer.py, lines 1939-1953): value, offset, size and the
`CREATE2` salt. -/
def createStackParams (step : TraceStep) :
    Except Unit (Option (Nat × Nat × Nat × Option String)) :=
  if step.op = "CREATE" then
    if step.stack.length < 3 then .ok none
    else do
      let value ← liftOpt (pyIntHex? (getNeg step.stack 1))
      let offset ← liftOpt (pyIntHex? (getNeg step.stack 2))
      let size ← liftOpt (pyIntHex? (getNeg step.stack 3))
      pure (some (value, offset, size, none))
  else if step.op = "CREATE2" then
    if step.stack.length < 4 then .ok none
    else do
      let value ← liftOpt (pyIntHex? (getNeg step.stack 1))
      let offset ← liftOpt (pyIntHex? (getNeg step.stack 2))
      let size ← liftOpt (pyIntHex? (getNeg step.stack 3))
      pure (some (value, offset, size, some (getNeg step.stack 4)))
  else .ok none

/-- `_process_create_call` (transaction_tracer.py, lines 1934-1985). -/
def _process_create_call (trace : TransactionTrace) (checksum : String → String)
    (mc? : Option MCParser) (step : TraceStep) (step_idx : Nat)
    (current_depth : Nat) : Except Unit (Option FunctionCall) :=
  do
    match ← createStackParams step with
    | none => pure none
    | some (value, offset, size, salt?) =>
      let created_address ← _extract_created_address step_idx trace
      let init_code := _extract_memory_slice step offset size
      let args0 : List (String × Option PyVal) := [("value", some (.int value))]
      let args1 := args0 ++
        (match salt? with
         | some s => if s ≠ "" then [("salt", some (.str s))] else []
         | none => [])
      let args := args1 ++
        (match init_code with
         | some ic => if ic ≠ "" ∧ pyLen ic > 10 then
             [("init_code", some (.str ("0x" ++ pyTake ic 20 ++ "...")))] else []
         | none => [])
      let contract_name :=
        match created_address with
        | some ca => if ca ≠ "" then format_address_display checksum mc? ca else "NewContract"
        | none => "NewContract"
      pure (some
        { name := step.op ++ "  " ++ contract_name ++ "::constructor",
          selector := "", entry_step := some step_idx, exit_step := none,
          gas_used := 0, depth := current_depth + 1, args := args,
          call_type := step.op, contract_address := created_address })

/-! ## transaction_tracer.py: `analyze_function_calls` (lines 1307-1770)

Frames are stored in an arena indexed by `call_id` (the source's
`next_call_id` counts up by one per created frame, so ids are exactly the
creation order and `next_call_id = arena.length`); the source's
`function_calls` list is `order` (a list of ids kept in
`insert_call_sorted` order) and `call_stack` is a list of ids, top last.
The unused local `active_parents` (only ever appended to) is omitted. -/

/-- A saved entry of the source's `context_stack`. -/
structure SavedCtx where
  contract : Option String
  depth : Nat
  return_pc : Nat
  ethdebug_info : Option EthdebugInfo
  ethdebug_parse : ParserFun

/-- The loop state of `analyze_function_calls`. -/
structure BState where
  arena : List FunctionCall
  order : List Nat
  call_stack : List Nat
  context_stack : List SavedCtx
  current_contract : Option String
  current_depth : Nat
  revertMarked : Bool
  prev_depth : Nat
  tracer : TracerState
  mainId : Option Nat

/-- Frame of the arena at an id (ids are always in range when read). -/
def getFr (s : BState) (id : Nat) : FunctionCall := s.arena.getD id default

/-- Update one position of a list. -/
def modAt {α : Type} : List α → Nat → (α → α) → List α
  | [], _, _ => []
  | a :: rest, 0, f => f a :: rest
  | a :: rest, n + 1, f => a :: modAt rest n f

/-- Update one frame of the arena. -/
def modFr (s : BState) (id : Nat) (f : FunctionCall → FunctionCall) : BState :=
  { s with arena := modAt s.arena id f }

/-- `insert_call_sorted` (transaction_tracer.py, lines 1321-1335): insert
before the first entry whose `entry_step` is set and greater; frames with
no `entry_step` are appended. -/
def insertSortedAux (arena : List FunctionCall) (es : Int) (id : Nat) :
    List Nat → List Nat
  | [] => [id]
  | o :: rest =>
    match (arena.getD o default).entry_step with
    | some e => if e > es then id :: o :: rest else o :: insertSortedAux arena es id rest
    | none => o :: insertSortedAux arena es id rest

/-- `insert_call_sorted` on the builder state (the frame is already in the
arena under `id`). -/
def insert_call_sorted (s : BState) (id : Nat) : BState :=
  match (getFr s id).entry_step with
  | none => { s with order := s.order ++ [id] }
  | some es => { s with order := insertSortedAux s.arena es id s.order }

/-- Membership of a call type in `["CALL", "DELEGATECALL", "STATICCALL"]`. -/
def isExternalType (t : String) : Bool :=
  t = "CALL" || t = "DELEGATECALL" || t = "STATICCALL"

/-- Append a freshly created frame: its id is the source's `next_call_id`,
which equals the arena length at creation time. -/
def pushNewFrame (s : BState) (fr : FunctionCall) : BState :=
  { s with arena := s.arena ++ [{ fr with call_id := s.arena.length }] }

/-- The parent/child bookkeeping block that the source repeats verbatim in
the external-call and `JUMPDEST` branches (transaction_tracer.py,
lines 1425-1457 and 1621-1648). -/
def parentChildUpdate (s : BState) (id : Nat) : BState :=
  if s.call_stack.isEmpty then s
  else if (getFr s id).depth = 1 ∧ s.call_stack.length > 1 then
    match s.call_stack.find? (fun fid =>
        (getFr s fid).depth = 1 && (getFr s fid).call_type = "external") with
    | some mid =>
      let s := modFr s mid fun f =>
        { f with children_call_ids := f.children_call_ids ++ [id] }
      modFr s id fun f => { f with parent_call_id := some (getFr s mid).call_id }
    | none =>
      modFr s ((s.call_stack.getLast?).getD 0) fun f =>
        { f with children_call_ids := f.children_call_ids ++ [id] }
  else if (getFr s id).depth > (getFr s ((s.call_stack.getLast?).getD 0)).depth then
    modFr s ((s.call_stack.getLast?).getD 0) fun f =>
      { f with children_call_ids := f.children_call_ids ++ [id] }
  else
    match (List.range s.call_stack.length).reverse.find? (fun j =>
        (getFr s id).depth > (getFr s (s.call_stack.getD j 0)).depth) with
    | some j =>
      modFr s (s.call_stack.getD j 0) fun f =>
        { f with children_call_ids := f.children_call_ids ++ [id] }
    | none => s

/-- Depth-decrease handling (transaction_tracer.py, lines 1399-1420):
close the topmost still-open external frame at step `i - 1` and restore
the saved context.  The topmost external frame always carries an
`entry_step`; a missing one would be an uncaught `TypeError` in the
source, hence `.error`. -/
def depthReturn (trace : TransactionTrace) (s : BState) (i : Nat) :
    Except Unit BState :=
  match (List.range s.call_stack.length).reverse.find? (fun j =>
      isExternalType (getFr s (s.call_stack.getD j 0)).call_type) with
  | none => pure s
  | some j =>
    match (getFr s (s.call_stack.getD j 0)).entry_step with
    | none => .error ()
    | some es =>
      match s.context_stack.getLast? with
      | some ctx =>
        pure { modFr s (s.call_stack.getD j 0) (fun f =>
                 { f with exit_step := some ((i : Int) - 1),
                          gas_used := (trace.steps.getD es.toNat default).gas -
                            (trace.steps.getD (i - 1) default).gas }) with
               call_stack := s.call_stack.eraseIdx j,
               context_stack := s.context_stack.dropLast,
               current_contract := ctx.contract, current_depth := ctx.depth,
               tracer := { ethdebug_info := ctx.ethdebug_info,
                           ethdebug_parse := ctx.ethdebug_parse } }
      | none =>
        pure { modFr s (s.call_stack.getD j 0) (fun f =>
                 { f with exit_step := some ((i : Int) - 1),
                          gas_used := (trace.steps.getD es.toNat default).gas -
                            (trace.steps.getD (i - 1) default).gas }) with
               call_stack := s.call_stack.eraseIdx j }

/-- The `while call_stack:` loop of the `RETURN`/`REVERT`/`STOP` branch
(transaction_tracer.py, lines 1659-1681): pop and close frames until an
external frame is closed (restoring its saved context) or the stack is
empty; non-external pops decrement the depth (floored at 0).  Every
iteration removes exactly one element from `call_stack`, so the loop is
bounded by the stack height; the first (`fuel`) argument is the stack at
loop entry, recursed on structurally to express that bound.
`closeUpd` is the frame update applied to the popped frame `fr`
(exit step and gas bookkeeping, transaction_tracer.py, lines 1661-1668). -/
def closeUpd (trace : TransactionTrace) (i : Nat) (stepGas : Int)
    (fr : FunctionCall) : FunctionCall → FunctionCall := fun f =>
  { f with
    exit_step := some (i : Int),
    gas_used :=
      match fr.entry_step with
      | some es => if es < (trace.steps.length : Int) then
          (trace.steps.getD es.toNat default).gas - stepGas else 0
      | none => 0 }

def exitPops (trace : TransactionTrace) (i : Nat) (stepGas : Int) :
    List Nat → BState → BState
  | [], s => s
  | _ :: fuel, s =>
    match s.call_stack.getLast? with
    | none => s
    | some id =>
      if isExternalType (getFr s id).call_type then
        match s.context_stack.getLast? with
        | some ctx =>
          { modFr s id (closeUpd trace i stepGas (getFr s id)) with
            call_stack := s.call_stack.dropLast,
            context_stack := s.context_stack.dropLast,
            current_contract := ctx.contract, current_depth := ctx.depth,
            tracer := { ethdebug_info := ctx.ethdebug_info,
                        ethdebug_parse := ctx.ethdebug_parse } }
        | none =>
          { modFr s id (closeUpd trace i stepGas (getFr s id)) with
            call_stack := s.call_stack.dropLast }
      else
        exitPops trace i stepGas fuel
          { modFr s id (closeUpd trace i stepGas (getFr s id)) with
            call_stack := s.call_stack.dropLast,
            current_depth := s.current_depth - 1 }

/-- Python-dict insert (replace in place or append). -/
def dictInsert : List (String × PyVal) → String → PyVal → List (String × PyVal)
  | [], k, v => [(k, v)]
  | (k', v') :: rest, k, v =>
    if k' = k then (k, v) :: rest else (k', v') :: dictInsert rest k v

/-- Python-dict lookup. -/
def dictGet? (d : List (String × PyVal)) (k : String) : Option PyVal :=
  (d.find? (fun p => p.1 = k)).map (·.2)

/-- Build `inherited_args` (transaction_tracer.py, lines 1525-1528): every
parent argument whose value is not `None`. -/
def buildInherited (parent_args : List (String × Option PyVal)) :
    List (String × PyVal) :=
  parent_args.foldl (fun d p =>
    match p.2 with
    | some v => dictInsert d p.1 v
    | none => d) []

/-- The complex-type test (transaction_tracer.py, lines 1543-1548). -/
def has_complex_type (t : String) : Bool :=
  pyStarts t "tuple" || pyHasSub t "(" || pyEnds t "[]" || pyHasSub t "[" ||
  t = "string" || t = "bytes"

/-- The inheritance condition (transaction_tracer.py, lines 1521-1524):
the parent is an external `CALL`-family frame with non-empty decoded
arguments and `parent.name.split("::")[1].split("(")[0] == call.name`.
External frames always contain `"::"` by construction, so the defaulting
`getD` matches Python's (otherwise raising) `[1]` indexing. -/
def inherit_condition (parent? : Option FunctionCall) (callName : String) : Bool :=
  match parent? with
  | none => false
  | some p =>
    isExternalType p.call_type && !p.args.isEmpty && p.name ≠ "" && callName ≠ "" &&
    (((p.name.splitOn "::").getD 1 "").splitOn "(").headD "" = callName

/-- The argument assignment for a new `Internal` frame
(transaction_tracer.py, lines 1536-1618).  `inherited` is the (possibly
empty) `inherited_args` dict.  With no ABI entry the arguments stay empty;
with an empty stack nothing further happens; a declared complex type
suppresses all stack reads; otherwise parameter `i` is decoded from stack
slot `len(stack) - 1 - i` unless inherited.  The source's `except` branch
of the stack read is unreachable because `decode_value` catches its own
failures, and the index guard `0 <= stack_idx < len(stack)` is `i <
len(stack)`. -/
def internal_call_args (checksum : String → String) (stack : List String)
    (abi? : Option AbiEntry) (inherited : List (String × PyVal)) :
    List (String × Option PyVal) :=
  match abi? with
  | none => []
  | some abi =>
    if stack.isEmpty then []
    else
      let has_complex_types := abi.inputs.any (fun p => has_complex_type p.type)
      if has_complex_types then
        if !inherited.isEmpty then
          abi.inputs.map (fun p => (p.name, dictGet? inherited p.name))
        else []
      else
        (enumerate abi.inputs).map (fun ip =>
          let i := ip.1
          let p := ip.2
          match dictGet? inherited p.name with
          | some v => (p.name, some v)
          | none =>
            if i < stack.length then
              (p.name, some (decode_value checksum
                (stack.getD (stack.length - 1 - i) "") p.type))
            else (p.name, none))

/-- The child bookkeeping of the `CREATE`/`CREATE2` branch
(transaction_tracer.py, lines 1592-1598): append the new frame's id to the
children of the frame on top of the call stack, if any. -/
def createChildUpdate (s : BState) (id : Nat) : BState :=
  match s.call_stack.getLast? with
  | some top => modFr s top fun f =>
      { f with children_call_ids := f.children_call_ids ++ [id] }
  | none => s

/-- The ETHDebug-info switch after an external call
(transaction_tracer.py, lines 1468-1473): switch to the target contract's
parser when it is registered, else keep the current one. -/
def switchTracer (env : TracerEnv) (ca? : Option String) (tr : TracerState) :
    TracerState :=
  match env.multi_contract, ca? with
  | some mc, some ca =>
    if ca ≠ "" then
      match get_contract_at_address env.checksum mc ca with
      | some target =>
        { ethdebug_info := target.ethdebug_info, ethdebug_parse := target.parser }
      | none => tr
    else tr
  | _, _ => tr

/-- The opcode dispatch of one loop iteration (the body of the `for` loop
of transaction_tracer.py, lines 1421-1681, after the depth-decrease
handling and the `prev_depth` update). -/
def dispatchStep (env : TracerEnv) (trace : TransactionTrace) (s : BState)
    (i : Nat) (step : TraceStep) : Except Unit BState := do
  if isExternalType step.op then
    match ← _process_external_call env step i s.current_depth with
    | none => pure s
    | some call0 =>
      let parentId? := s.call_stack.getLast?
      let call := { call0 with
        parent_call_id := parentId?.map (fun pid => (getFr s pid).call_id) }
      let id := s.arena.length
      let s := pushNewFrame s call
      let s := parentChildUpdate s id
      let s := insert_call_sorted s id
      let saved : SavedCtx :=
        { contract := s.current_contract, depth := s.current_depth,
          return_pc := step.pc + 1, ethdebug_info := s.tracer.ethdebug_info,
          ethdebug_parse := s.tracer.ethdebug_parse }
      pure { s with
             call_stack := s.call_stack ++ [id],
             context_stack := s.context_stack ++ [saved],
             current_contract := (getFr s id).contract_address,
             current_depth := s.current_depth + 1,
             tracer := switchTracer env (getFr s id).contract_address s.tracer }
  else if step.op = "CREATE" || step.op = "CREATE2" then
    match ← _process_create_call trace env.checksum env.multi_contract
        step i s.current_depth with
    | none => pure s
    | some call0 =>
      let parentId? := s.call_stack.getLast?
      let call := { call0 with
        parent_call_id := parentId?.map (fun pid => (getFr s pid).call_id) }
      let id := s.arena.length
      let s := pushNewFrame s call
      let s := createChildUpdate s id
      let s := insert_call_sorted s id
      let saved : SavedCtx :=
        { contract := s.current_contract, depth := s.current_depth,
          return_pc := step.pc + 1, ethdebug_info := s.tracer.ethdebug_info,
          ethdebug_parse := s.tracer.ethdebug_parse }
      pure { s with
             call_stack := s.call_stack ++ [id],
             context_stack := s.context_stack ++ [saved],
             current_depth := s.current_depth + 1 }
  else if step.op = "JUMPDEST" then
    match _detect_internal_call env s.tracer step i s.current_contract
        (s.call_stack.map (getFr s)) with
    | none => pure s
    | some call0 =>
      let parentId? := s.call_stack.getLast?
      -- ETHDebug argument branch for non-internal calls: `_detect_internal_call`
      -- only produces `call_type = "internal"`, so this branch never fires,
      -- but it is embedded as written.  The two argument rewrites only touch
      -- `args` (neither changes `name` or `call_type`), so they are expressed
      -- as the `args` value of the one final record.
      let args1 :=
        if s.tracer.ethdebug_info.isSome ∧ call0.call_type ≠ "internal" then
          match env.function_abis_by_name call0.name with
          | some abi_entry =>
            abi_entry.inputs.map (fun p =>
              (p.name, env.find_parameter_value_from_ethdebug i p.name p.type))
          | none => call0.args
        else call0.args
      let args2 :=
        if call0.call_type = "internal" then
          match env.function_abis_by_name call0.name with
          | some abi_entry =>
            internal_call_args env.checksum step.stack (some abi_entry)
              (if inherit_condition (parentId?.map (getFr s)) call0.name then
                 buildInherited ((((parentId?.map (getFr s)).map (·.args))).getD [])
               else [])
          | none =>
            if inherit_condition (parentId?.map (getFr s)) call0.name then []
            else args1
        else args1
      let call := { call0 with
        parent_call_id := parentId?.map (fun pid => (getFr s pid).call_id),
        args := args2 }
      let id := s.arena.length
      let s := pushNewFrame s call
      let s := parentChildUpdate s id
      let s := insert_call_sorted s id
      pure { s with call_stack := s.call_stack ++ [id] }
  else if step.op = "RETURN" || step.op = "REVERT" || step.op = "STOP" then
    if step.op = "REVERT" ∧ ¬s.call_stack.isEmpty ∧ ¬s.revertMarked then
      pure (exitPops trace i step.gas s.call_stack
        { (modFr s ((s.call_stack.getLast?).getD 0) fun f =>
             { f with caused_revert := true }) with
          revertMarked := true })
    else
      pure (exitPops trace i step.gas s.call_stack s)
  else
    pure s

/-- One iteration of the main loop of `analyze_function_calls`
(transaction_tracer.py, lines 1397-1681) at step index `i`: first the
depth-decrease handling and the `prev_depth` update, then the opcode
dispatch. -/
def processStep (env : TracerEnv) (trace : TransactionTrace) (s : BState)
    (i : Nat) (step : TraceStep) : Except Unit BState := do
  let s ← if i > 0 ∧ step.depth < s.prev_depth then depthReturn trace s i else pure s
  dispatchStep env trace { s with prev_depth := step.depth } i step

/-- The initial builder state (transaction_tracer.py, lines 1309-1395):
the dispatcher frame (id 0) and, when the transaction input carries a
4-byte selector, the early `main_call` frame (id 1, entry unknown yet). -/
def initState (env : TracerEnv) (st : TracerState) (trace : TransactionTrace) :
    BState :=
  let dispatcher := { _create_dispatcher_call env st trace with call_id := 0 }
  let s : BState :=
    { arena := [dispatcher], order := [0], call_stack := [0],
      context_stack := [], current_contract := trace.to_addr,
      current_depth := 1, revertMarked := false, prev_depth := 0,
      tracer := st, mainId := none }
  let main_selector :=
    if trace.input_data ≠ "" ∧ pyLen trace.input_data ≥ 10 then
      some (pyTake trace.input_data 10)
    else none
  match main_selector with
  | none => s
  | some sel =>
    let main_function_name :=
      match env.function_signatures sel with
      | some nm => nm
      | none =>
        match env.lookup_function_signature sel with
        | some sig => sig
        | none => "function_" ++ sel
    let main_call : FunctionCall :=
      { name := main_function_name, selector := sel, entry_step := none,
        exit_step := none, gas_used := 0, depth := 1, args := [],
        call_type := "external", call_id := 1, parent_call_id := some 0 }
    { s with
      order := s.order ++ [1],
      call_stack := s.call_stack ++ [1],
      arena := modAt (s.arena ++ [main_call]) 0 fun f =>
        { f with children_call_ids := f.children_call_ids ++ [1] },
      mainId := some 1 }

/-- Close every frame left on the stack at the end of the trace
(transaction_tracer.py, lines 1684-1689). -/
def forceClose (trace : TransactionTrace) (s : BState) : BState :=
  s.call_stack.foldl (fun s id =>
    modFr s id fun f =>
      let gas :=
        if trace.steps ≠ [] ∧ f.entry_step ≠ none ∧
            f.entry_step.getD 0 < (trace.steps.length : Int) then
          (trace.steps.getD (f.entry_step.getD 0).toNat default).gas -
            ((trace.steps.getLast?).getD default).gas
        else 0
      { f with
        exit_step := some (if trace.steps ≠ [] then (trace.steps.length : Int) - 1 else 0),
        gas_used := gas }) s

/-- The `should_add_main_function` / `source_line` computation of the
heuristic main-function scan (transaction_tracer.py, lines 1725-1744).
In the no-debug-info branch, Python compares against the *float*
`trace.steps[0].gas * 0.1`; this is modelled by the exact comparison
`10 * consumed < gas₀`, which can differ from the binary-float comparison
only at boundary values; no verified claim depends on this branch. -/
def shouldAddMain (trace : TransactionTrace) (s : BState) (i : Nat) :
    Bool × Option Int :=
  let step := trace.steps.getD i default
  match s.tracer.ethdebug_info with
  | some _ =>
    match s.tracer.ethdebug_parse step.pc with
    | some context =>
      if context.line > 8 then (true, some context.line) else (false, none)
    | none => (false, none)
  | none =>
    if i < 100 ∧ step.gas > 0 then
      if i > 0 ∧ (trace.steps.getD 0 default).gas > 0 then
        let gas0 := (trace.steps.getD 0 default).gas
        if 10 * (gas0 - step.gas) < gas0 then (true, none) else (false, none)
      else (false, none)
    else (false, none)

/-- The re-parenting loop after the heuristic main-function update
(transaction_tracer.py, lines 1761-1768). -/
def reparentLoop (s : BState) (mainId : Nat) : BState :=
  (List.range' 2 (s.order.length - 2)).foldl (fun s j =>
    if (getFr s (s.order.getD j 0)).parent_call_id =
         some (getFr s (s.order.getD 0 0)).call_id ∧
       (getFr s (s.order.getD j 0)).depth = 1 then
      let s1 := modFr s (s.order.getD j 0) fun f =>
        { f with parent_call_id := some (getFr s mainId).call_id }
      let s2 := modFr s1 mainId fun f =>
        { f with children_call_ids :=
            f.children_call_ids ++ [(getFr s (s.order.getD j 0)).call_id] }
      if (getFr s2 (s.order.getD 0 0)).children_call_ids.contains
           (getFr s (s.order.getD j 0)).call_id then
        modFr s2 (s.order.getD 0 0) fun f =>
          { f with children_call_ids :=
              f.children_call_ids.erase (getFr s (s.order.getD j 0)).call_id }
      else s2
    else s) s

/-- The post-pass handling of the main entry function
(transaction_tracer.py, lines 1692-1768). -/
def postPass (env : TracerEnv) (trace : TransactionTrace) (s : BState) : BState :=
  match (if trace.input_data ≠ "" ∧ pyLen trace.input_data ≥ 10 then
           some (pyTake trace.input_data 10)
         else none) with
  | none => s
  | some sel =>
    match s.order.find? (fun id =>
        pyHasSub (match env.function_signatures sel with
          | some nm => nm
          | none =>
            match env.lookup_function_signature sel with
            | some sig => sig
            | none => "function_" ++ sel) (getFr s id).name ||
        pyStarts (match env.function_signatures sel with
          | some nm => nm
          | none =>
            match env.lookup_function_signature sel with
            | some sig => sig
            | none => "function_" ++ sel) ((getFr s id).name ++ "(")) with
    | some id =>
      modFr s id fun f =>
        { f with
          selector := sel,
          args := env.decode_function_parameters sel trace.input_data,
          call_type := "external" }
    | none =>
      if trace.steps.length > 50 then
        match s.mainId with
        | none => s
        | some mainId =>
          match (List.range' 20 (min 200 trace.steps.length - 20)).find? (fun i =>
              (trace.steps.getD i default).op = "JUMPDEST" ∧ i > 35 ∧
              (shouldAddMain trace s i).1) with
          | none => s
          | some i =>
            let s1 := modFr s mainId fun f =>
              { f with
                entry_step := some (i : Int),
                exit_step := some ((trace.steps.length : Int) - 1),
                gas_used := (trace.steps.getD i default).gas -
                  ((trace.steps.getLast?).getD default).gas,
                source_line := (shouldAddMain trace s i).2,
                args := env.decode_function_parameters sel trace.input_data }
            reparentLoop
              (insert_call_sorted { s1 with order := s1.order.erase mainId } mainId)
              mainId
      else s

/-- The `for i, step in enumerate(trace.steps)` loop, as explicit
recursion over the enumerated steps. -/
def runSteps (env : TracerEnv) (trace : TransactionTrace) :
    BState → List (Nat × TraceStep) → Except Unit BState
  | s, [] => pure s
  | s, (i, stp) :: rest => do
    runSteps env trace (← processStep env trace s i stp) rest

/-- `analyze_function_calls` (transaction_tracer.py, lines 1307-1770):
the full pass, returning the produced frame list together with the
tracer state it leaves behind (`self.ethdebug_info`/`self.ethdebug_parser`
as mutated by context switching). -/
def analyze_function_calls (env : TracerEnv) (st : TracerState)
    (trace : TransactionTrace) : Except Unit (List FunctionCall × TracerState) := do
  let s0 := initState env st trace
  let sEnd ← runSteps env trace s0 (enumerate trace.steps)
  let s1 := forceClose trace sEnd
  let s2 := postPass env trace s1
  pure (s2.order.map (getFr s2), s2.tracer)

/-- The builder state after the first `k` loop iterations (used to speak
about "the call stack at step `k`"). -/
def stateAfter (env : TracerEnv) (st : TracerState) (trace : TransactionTrace)
    (k : Nat) : Except Unit BState :=
  runSteps env trace (initState env st trace) ((enumerate trace.steps).take k)

/-! ## Concrete sessions and traces used as test vectors -/

/-- A tracer session with nothing loaded; the checksum function of the
session is taken to be the identity (its exact casing never matters to the
properties proved here, and any fixed function is a legitimate instance). -/
def envBase : TracerEnv :=
  { multi_contract := none
    function_signatures := fun _ => none
    lookup_function_signature := fun _ => none
    decode_function_parameters := fun _ _ => []
    function_abis_by_name := fun _ => none
    find_parameter_value_from_ethdebug := fun _ _ _ => none
    checksum := fun s => s }

/-- Tracer state with no ETHDebug info loaded. -/
def stEmpty : TracerState :=
  { ethdebug_info := none, ethdebug_parse := fun _ => none }

/-- A trace whose frames are all closed (by the `STOP`) before a `REVERT`
executes: two steps, `STOP` then `REVERT`. -/
def traceStopRevert : TransactionTrace :=
  { to_addr := some "0xaaaaaaaaaaaaaaaaaaaaaaaaaaaaaaaaaaaaaaaa"
    input_data := ""
    steps :=
      [ { pc := 0, op := "STOP", gas := 100, depth := 1, stack := [] },
        { pc := 1, op := "REVERT", gas := 90, depth := 1, stack := [] } ] }

/-- A run of `n` zero characters. -/
def zeros (n : Nat) : String := ⟨List.replicate n '0'⟩

/-- Memory whose 32-byte word at byte offset `0x40` holds a 20-byte
address in its low bytes. -/
def viaIrMemory : String := zeros 152 ++ "deadbeefdeadbeefdeadbeefdeadbeefdeadbeef"

/-- A `CALL` step whose target stack word is the small value `0x40`
(`stack[-2]`) while the real address sits in memory at offset `0x40`. -/
def callStep40 : TraceStep :=
  { pc := 0, op := "CALL", gas := 5000, depth := 1,
    stack := ["0x0", "0x0", "0x0", "0x0", "0x0", "0x40", "0xffff"],
    memory := some viaIrMemory }

/-- The via-ir memory-offset call-target scenario of the specification. -/
def traceViaIr : TransactionTrace :=
  { to_addr := some "0xaaaaaaaaaaaaaaaaaaaaaaaaaaaaaaaaaaaaaaaa"
    input_data := ""
    steps := [callStep40] }

/-- Session for the fall-through-`JUMPDEST` trace: single-contract mode
with a parser that maps pc 5 to a `function foo` source line. -/
def stFoo : TracerState :=
  { ethdebug_info := some { contract_name := "C", instructions := [] }
    ethdebug_parse := fun pc =>
      if pc = 5 then some { line := 10, content := "function foo() public \x7b" } else none }

/-- An `ADD` at pc 4 followed in straight-line execution (no jump) by the
`JUMPDEST` at pc 5. -/
def traceFallThrough : TransactionTrace :=
  { to_addr := some "0xaaaaaaaaaaaaaaaaaaaaaaaaaaaaaaaaaaaaaaaa"
    input_data := ""
    steps :=
      [ { pc := 4, op := "ADD", gas := 100, depth := 1, stack := [] },
        { pc := 5, op := "JUMPDEST", gas := 97, depth := 1, stack := [] } ] }

/-- Session for the argument-inheritance trace: the selector `0xaabbccdd`
resolves to `foo(a: uint256)` and decodes to `a = 5`; pc 7 is the `foo`
function head. -/
def envInherit : TracerEnv :=
  { envBase with
    function_signatures := fun sel => if sel = "0xaabbccdd" then some "foo" else none
    decode_function_parameters := fun sel _ =>
      if sel = "0xaabbccdd" then [("a", some (.int 5))] else []
    function_abis_by_name := fun n =>
      if n = "foo" then some { inputs := [{ name := "a", type := "uint256" }] } else none }

/-- Tracer state for the inheritance trace. -/
def stInherit : TracerState :=
  { ethdebug_info := some { contract_name := "C", instructions := [] }
    ethdebug_parse := fun pc =>
      if pc = 7 then some { line := 12, content := "function foo() public \x7b" } else none }

/-- A `CALL` to `foo` with decoded argument `a = 5` immediately followed by
the `JUMPDEST` of an internal `foo` whose step has an *empty* stack. -/
def traceInherit : TransactionTrace :=
  { to_addr := some "0xaaaaaaaaaaaaaaaaaaaaaaaaaaaaaaaaaaaaaaaa"
    input_data := ""
    steps :=
      [ { pc := 0, op := "CALL", gas := 5000, depth := 1,
          stack := ["0x0", "0x0", "0x4", "0x0", "0x0",
                    "0x1234567890123456789012345678901234567890", "0xffff"],
          memory := some "aabbccdd" },
        { pc := 7, op := "JUMPDEST", gas := 4000, depth := 1, stack := [] } ] }

/-- A 3-stack-item `CREATE` followed by a `PUSH20` of a nonzero address in
the lookahead window. -/
def traceCreatePush : TransactionTrace :=
  { to_addr := some "0xaaaaaaaaaaaaaaaaaaaaaaaaaaaaaaaaaaaaaaaa"
    input_data := ""
    steps :=
      [ { pc := 0, op := "CREATE", gas := 9000, depth := 1,
          stack := ["0x0", "0x0", "0x0"] },
        { pc := 1, op := "PUSH20", gas := 8900, depth := 1,
          stack := ["0xdeadbeefdeadbeefdeadbeefdeadbeefdeadbeef"] } ] }

/-- A `CREATE` with only two stack items (fewer than the required 3). -/
def traceCreateShort : TransactionTrace :=
  { to_addr := some "0xaaaaaaaaaaaaaaaaaaaaaaaaaaaaaaaaaaaaaaaa"
    input_data := ""
    steps :=
      [ { pc := 0, op := "CREATE", gas := 9000, depth := 1,
          stack := ["0x0", "0x0"] } ] }

/-- Two executions of the same `JUMPDEST` (a loop back-edge) while the
frame it opened is still open. -/
def traceLoop : TransactionTrace :=
  { to_addr := some "0xaaaaaaaaaaaaaaaaaaaaaaaaaaaaaaaaaaaaaaaa"
    input_data := ""
    steps :=
      [ { pc := 5, op := "JUMPDEST", gas := 100, depth := 1, stack := [] },
        { pc := 5, op := "JUMPDEST", gas := 95, depth := 1, stack := [] } ] }

instance : Inhabited BState :=
  ⟨{ arena := [], order := [], call_stack := [], context_stack := [],
     current_contract := none, current_depth := 0, revertMarked := false,
     prev_depth := 0, tracer := stEmpty, mainId := none }⟩

/-- The builder state after the first `JUMPDEST` of `traceLoop` (the
frame for `foo` is open on the stack). -/
def sLoop1 : BState := (stateAfter envBase stFoo traceLoop 1).toOption.getD default

/-- A registered contract for the multi-contract idempotence trace. -/
def targetCi : ContractDebugInfo :=
  { address := "0xcccccccccccccccccccccccccccccccccccccccc"
    name := "Target"
    ethdebug_info := some { contract_name := "Target", instructions := [] }
    parser := fun pc =>
      if pc = 5 then some { line := 3, content := "function foo() \x7b" } else none }

/-- Multi-contract session with one registered contract. -/
def envMc : TracerEnv :=
  { envBase with
    multi_contract := some
      { contracts := fun a =>
          if a = "0xcccccccccccccccccccccccccccccccccccccccc" then some targetCi else none
        execution_stack := [] } }

/-- A creation-context trace (`to` absent) with a `JUMPDEST` before a
`CALL` into the registered contract that stays open at trace end, so the
first analysis permanently switches the tracer's active debug info. -/
def traceMc : TransactionTrace :=
  { to_addr := none
    input_data := ""
    steps :=
      [ { pc := 5, op := "JUMPDEST", gas := 100, depth := 1, stack := [] },
        { pc := 6, op := "CALL", gas := 90, depth := 1,
          stack := ["0x0", "0x0", "0x0", "0x0", "0x0",
                    "0xcccccccccccccccccccccccccccccccccccccccc", "0xffff"] } ] }

/-- A trace whose only step is a `REVERT` at depth 1: the dispatcher frame
is still open (on the builder's call stack) when the `REVERT` executes. -/
def traceRevert : TransactionTrace :=
  { to_addr := some "0xaaaaaaaaaaaaaaaaaaaaaaaaaaaaaaaaaaaaaaaa"
    input_data := ""
    steps := [ { pc := 0, op := "REVERT", gas := 100, depth := 1, stack := [] } ] }

/-- The builder state before the `REVERT` step of `traceRevert` (no loop
iteration has run yet). -/
def sRev : BState := initState envBase stEmpty traceRevert

/-- The frame list `analyze_function_calls` produces for `traceRevert`. -/
def callsRev : List FunctionCall :=
  ((analyze_function_calls envBase stEmpty traceRevert).toOption.getD
    ([], stEmpty)).1

/-- The tracer state `analyze_function_calls` leaves behind for
`traceRevert`. -/
def trRev : TracerState :=
  ((analyze_function_calls envBase stEmpty traceRevert).toOption.getD
    ([], stEmpty)).2

/-- The matching rule exactly as the claim words it (spec-side definition,
for comparison with the source's `match_single_type`): two types match iff
the strings are equal, or the parsed type is parenthesized (starts with
`(` and ends with `)`) and the declared type is `tuple`, or both end in
`[]` and the base types match by the same rule recursively. -/
def match_single_rule_claim (p a : List Char) : Bool :=
  if p = a then true
  else if ['('].isPrefixOf p && [')'].isSuffixOf p && a = "tuple".data then true
  else if h : (['[', ']'].isSuffixOf p && ['[', ']'].isSuffixOf a) = true then
    match_single_rule_claim (p.take (p.length - 2)) (a.take (a.length - 2))
  else false
termination_by p.length
decreasing_by
  simp only [Bool.and_eq_true, List.isSuffixOf_iff_suffix] at h
  have hp : 2 ≤ p.length := by
    have := h.1.length_le
    simpa using this
  simp only [List.length_take]
  omega

/-- The dispatcher frame produced for `traceStopRevert`. -/
def frDisp : FunctionCall :=
  { name := "Contract::runtime_dispatcher", selector := "",
    entry_step := some 0, exit_step := some 0, gas_used := 0, depth := 0,
    args := [], call_type := "entry",
    contract_address := some "0xaaaaaaaaaaaaaaaaaaaaaaaaaaaaaaaaaaaaaaaa" }

/-- The registry with no contracts loaded. -/
def mcEmpty : MCParser := { contracts := fun _ => none, execution_stack := [] }

/-- The frame the model produces for `callStep40` (checked by `rfl`
in the witness below). -/
def frViaIr : FunctionCall :=
  { name := "CALL  0x0000...0040::function_0x", selector := "",
    entry_step := some 0, exit_step := none, gas_used := 0, depth := 2,
    args := [], call_type := "CALL",
    contract_address := some "0x0000000000000000000000000000000000000040" }

/-! ## Invariants of the builder state (used for the revert-marking
properties) -/

/-- Number of frames flagged `caused_revert`. -/
def markedCount (l : List FunctionCall) : Nat := l.countP (·.caused_revert)

/-- Every arena slot holds the frame whose `call_id` is its index. -/
def IdsOk (s : BState) : Prop :=
  ∀ i, i < s.arena.length → (s.arena.getD i default).call_id = i

/-- `order` (the source's `function_calls` list) holds every created id
exactly once. -/
def OrderOk (s : BState) : Prop := s.order.Perm (List.range s.arena.length)

/-- Every id on the builder's call stack is a created id. -/
def StackOk (s : BState) : Prop := ∀ id ∈ s.call_stack, id < s.arena.length

/-- The early main-call id, when present, is a created id. -/
def MainOk (s : BState) : Prop := ∀ m, s.mainId = some m → m < s.arena.length

/-- The structural invariant maintained by every step of the pass. -/
def SInv (s : BState) : Prop := IdsOk s ∧ OrderOk s ∧ StackOk s ∧ MainOk s

/-- The marking state: `none` — no REVERT has marked yet and no frame is
flagged; `some T` — the flag has been set exactly once, on the frame with
id `T`. -/
def MarkState (s : BState) : Option Nat → Prop
  | none => s.revertMarked = false ∧ markedCount s.arena = 0
  | some T => s.revertMarked = true ∧ markedCount s.arena = 1 ∧
      ∀ c ∈ s.arena, c.caused_revert = true → c.call_id = T

/-- Shape preservation between two builder states: same arena length and
per-slot `call_id`s, same order list, call stack a subset, same main id.
All non-creating operations of the pass relate their input and output
states this way. -/
def SameShape (s s' : BState) : Prop :=
  s'.arena.length = s.arena.length ∧
  (∀ i, (s'.arena.getD i default).call_id = (s.arena.getD i default).call_id) ∧
  s'.order = s.order ∧
  (∀ id ∈ s'.call_stack, id ∈ s.call_stack) ∧
  s'.mainId = s.mainId

/-! ## Shared helper lemmas -/

theorem string_mk_data (s : String) : String.mk s.data = s := by
  cases s
  rfl

theorem pyDrop_append3 (c1 c2 c3 : Char) (r : String) :
    pyDrop (String.mk [c1, c2, c3] ++ r) 3 = r := by
  simp only [pyDrop, String.data_append]
  exact string_mk_data r

theorem pyStarts_append3 (c1 c2 c3 : Char) (r : String) :
    pyStarts (String.mk [c1, c2, c3] ++ r) (String.mk [c1, c2, c3]) = true := by
  simp [pyStarts, String.data_append, List.isPrefixOf]

theorem getD_map {α β : Type} (f : α → β) (l : List α) (k : Nat) (d0 : β)
    (d1 : α) (h : k < l.length) : (l.map f).getD k d0 = f (l.getD k d1) := by
  induction l generalizing k with
  | nil => simp at h
  | cons a t ih =>
    cases k with
    | zero => rfl
    | succ k =>
      simp only [List.map_cons, List.getD_cons_succ]
      exact ih k (by simpa using h)

theorem getD_enumerateFrom {α : Type} (l : List α) (j k : Nat)
    (d0 : Nat × α) (d1 : α) (h : k < l.length) :
    (enumerateFrom j l).getD k d0 = (j + k, l.getD k d1) := by
  induction l generalizing j k with
  | nil => simp at h
  | cons a t ih =>
    cases k with
    | zero => simp [enumerateFrom]
    | succ k =>
      have h' : k < t.length := by
        simp only [List.length_cons] at h
        omega
      simp only [enumerateFrom, List.getD_cons_succ]
      rw [ih (j + 1) k h']
      congr 1
      omega

theorem length_enumerateFrom {α : Type} (l : List α) (j : Nat) :
    (enumerateFrom j l).length = l.length := by
  induction l generalizing j with
  | nil => rfl
  | cons a t ih => simp [enumerateFrom, ih]

theorem getD_mem {α : Type} (l : List α) (k : Nat) (d : α) (h : k < l.length) :
    l.getD k d ∈ l := by
  induction l generalizing k with
  | nil => simp at h
  | cons a t ih =>
    cases k with
    | zero => simp
    | succ k => exact List.mem_cons_of_mem a (ih k (by simpa using h))

theorem length_modAt {α : Type} (l : List α) (i : Nat) (f : α → α) :
    (modAt l i f).length = l.length := by
  induction l generalizing i with
  | nil => rfl
  | cons a t ih =>
    cases i with
    | zero => rfl
    | succ i => simp [modAt, ih]

theorem getD_modAt {α : Type} (l : List α) (i j : Nat) (f : α → α) (d : α) :
    (modAt l i f).getD j d =
      if i = j ∧ j < l.length then f (l.getD j d) else l.getD j d := by
  induction l generalizing i j with
  | nil =>
    simp [modAt]
  | cons a t ih =>
    cases i with
    | zero =>
      cases j with
      | zero => simp [modAt]
      | succ j => simp [modAt]
    | succ i =>
      cases j with
      | zero => simp [modAt]
      | succ j =>
        simp only [modAt, List.getD_cons_succ, ih i j]
        by_cases hij : i = j ∧ j < t.length
        · rw [if_pos hij, if_pos (by simp only [List.length_cons]; omega)]
        · rw [if_neg hij, if_neg (by simp only [List.length_cons]; omega)]

theorem countP_modAt {p : FunctionCall → Bool} (l : List FunctionCall) (i : Nat)
    (f : FunctionCall → FunctionCall) (hf : ∀ c, p (f c) = p c) :
    (modAt l i f).countP p = l.countP p := by
  induction l generalizing i with
  | nil => rfl
  | cons a t ih =>
    cases i with
    | zero => simp [modAt, List.countP_cons, hf]
    | succ i => simp [modAt, List.countP_cons, ih]

theorem forall_mem_modAt {α : Type} {P : α → Prop} (l : List α) (i : Nat)
    (f : α → α) (h : ∀ c ∈ l, P c) (hf : ∀ c, P c → P (f c)) :
    ∀ c ∈ modAt l i f, P c := by
  induction l generalizing i with
  | nil => simp [modAt]
  | cons a t ih =>
    cases i with
    | zero =>
      intro c hc
      rcases List.mem_cons.mp hc with hc | hc
      · rw [hc]
        exact hf a (h a (by simp))
      · exact h c (List.mem_cons_of_mem a hc)
    | succ i =>
      intro c hc
      rcases List.mem_cons.mp hc with hc | hc
      · rw [hc]
        exact h a (by simp)
      · exact ih i (fun c hc => h c (List.mem_cons_of_mem a hc)) c hc

theorem map_getD_range {α : Type} (l : List α) (d : α) :
    (List.range l.length).map (fun i => l.getD i d) = l := by
  induction l with
  | nil => rfl
  | cons a t ih =>
    rw [List.length_cons, List.range_succ_eq_map, List.map_cons, List.map_map]
    have hfe : ((fun i => (a :: t).getD i d) ∘ Nat.succ) = (fun i => t.getD i d) := by
      funext i
      rfl
    rw [hfe, ih]
    rfl

theorem markedCount_modAt_true (l : List FunctionCall) (i : Nat)
    (hi : i < l.length) (hz : markedCount l = 0) :
    markedCount (modAt l i (fun f => { f with caused_revert := true })) = 1 := by
  induction l generalizing i with
  | nil => simp at hi
  | cons a t ih =>
    unfold markedCount at hz ⊢
    rw [List.countP_cons] at hz
    cases i with
    | zero =>
      simp only [modAt, List.countP_cons]
      rw [if_pos trivial]
      omega
    | succ i =>
      simp only [modAt, List.countP_cons]
      have ht : markedCount t = 0 := by
        unfold markedCount
        omega
      have := ih i (by simpa using hi) ht
      unfold markedCount at this
      omega

theorem marked_eq_zero_iff (l : List FunctionCall) :
    markedCount l = 0 ↔ ∀ c ∈ l, c.caused_revert = false := by
  unfold markedCount
  rw [List.countP_eq_zero]
  constructor
  · intro h c hc
    have := h c hc
    simpa using this
  · intro h c hc
    simp [h c hc]

theorem marked_modAt_true (l : List FunctionCall) :
    ∀ (i T : Nat), markedCount l = 0 → (l.getD i default).call_id = T →
      ∀ c ∈ modAt l i (fun f => { f with caused_revert := true }),
        c.caused_revert = true → c.call_id = T := by
  induction l with
  | nil =>
    intro i T _ _ c hc
    simp [modAt] at hc
  | cons a t ih =>
    intro i T hz hid c hc hcr
    have hall := (marked_eq_zero_iff _).mp hz
    cases i with
    | zero =>
      rcases List.mem_cons.mp hc with h | h
      · rw [h]
        simpa using hid
      · exact absurd hcr (by simp [hall c (List.mem_cons_of_mem a h)])
    | succ i =>
      rcases List.mem_cons.mp hc with h | h
      · exact absurd hcr (by simp [h, hall a (by simp)])
      · have ht : markedCount t = 0 :=
          (marked_eq_zero_iff t).mpr (fun c hc => hall c (List.mem_cons_of_mem a hc))
        exact ih i T ht (by simpa using hid) c h hcr

theorem insertSortedAux_perm (arena : List FunctionCall) (es : Int) (id : Nat)
    (order : List Nat) : (insertSortedAux arena es id order).Perm (id :: order) := by
  induction order with
  | nil => rfl
  | cons o rest ih =>
    unfold insertSortedAux
    cases hes : (arena.getD o default).entry_step with
    | none =>
      simp only [hes]
      exact (ih.cons o).trans (List.Perm.swap id o rest)
    | some e =>
      simp only [hes]
      by_cases he : e > es
      · rw [if_pos he]
      · rw [if_neg he]
        exact (ih.cons o).trans (List.Perm.swap id o rest)

theorem getD_append_lt {α : Type} (l1 l2 : List α) (j : Nat) (d : α)
    (h : j < l1.length) : (l1 ++ l2).getD j d = l1.getD j d := by
  induction l1 generalizing j with
  | nil => simp at h
  | cons a t ih =>
    cases j with
    | zero => rfl
    | succ j => exact ih j (by simpa using h)

theorem getD_append_len {α : Type} (l1 : List α) (a : α) (d : α) :
    (l1 ++ [a]).getD l1.length d = a := by
  induction l1 with
  | nil => rfl
  | cons b t ih => exact ih

/-! ## Preservation of the marking state by the builder's operations -/

theorem MarkState_of_eq (s s' : BState) (o : Option Nat)
    (hr : s'.revertMarked = s.revertMarked) (ha : s'.arena = s.arena)
    (h : MarkState s o) : MarkState s' o := by
  cases o with
  | none => exact ⟨hr.trans h.1, by rw [ha]; exact h.2⟩
  | some T =>
    refine ⟨hr.trans h.1, by rw [ha]; exact h.2.1, ?_⟩
    intro c hc
    exact h.2.2 c (ha ▸ hc)

theorem MarkState_modFr (s : BState) (id : Nat) (f : FunctionCall → FunctionCall)
    (hf : ∀ c, (f c).caused_revert = c.caused_revert)
    (hg : ∀ c, (f c).call_id = c.call_id) (o : Option Nat)
    (h : MarkState s o) : MarkState (modFr s id f) o := by
  cases o with
  | none =>
    refine ⟨h.1, ?_⟩
    show markedCount (modAt s.arena id f) = 0
    unfold markedCount
    rw [countP_modAt s.arena id f hf]
    exact h.2
  | some T =>
    refine ⟨h.1, ?_, ?_⟩
    · show markedCount (modAt s.arena id f) = 1
      unfold markedCount
      rw [countP_modAt s.arena id f hf]
      exact h.2.1
    · intro c hc hcr
      exact forall_mem_modAt (P := fun c => c.caused_revert = true → c.call_id = T)
        s.arena id f h.2.2
        (fun c hp hcr' => by rw [hg]; exact hp (by rw [hf] at hcr'; exact hcr'))
        c hc hcr

theorem MarkState_append_fresh (s : BState) (c0 : FunctionCall) (o : Option Nat)
    (hc : c0.caused_revert = false) (h : MarkState s o) :
    MarkState { s with arena := s.arena ++ [c0] } o := by
  cases o with
  | none =>
    refine ⟨h.1, ?_⟩
    show markedCount (s.arena ++ [c0]) = 0
    unfold markedCount
    rw [List.countP_append]
    have h2 := h.2
    unfold markedCount at h2
    rw [h2]
    simp [List.countP_cons, hc]
  | some T =>
    refine ⟨h.1, ?_, ?_⟩
    · show markedCount (s.arena ++ [c0]) = 1
      unfold markedCount
      rw [List.countP_append]
      have h2 := h.2.1
      unfold markedCount at h2
      rw [h2]
      simp [List.countP_cons, hc]
    · intro c hcmem hcr
      rcases List.mem_append.mp hcmem with hm | hm
      · exact h.2.2 c hm hcr
      · rw [List.mem_singleton.mp hm] at hcr
        rw [hc] at hcr
        exact absurd hcr (by simp)

theorem MarkState_push (s : BState) (fr : FunctionCall) (o : Option Nat)
    (hfr : fr.caused_revert = false) (h : MarkState s o) :
    MarkState (pushNewFrame s fr) o :=
  MarkState_append_fresh s { fr with call_id := s.arena.length } o hfr h

theorem MarkState_ics (s : BState) (id : Nat) (o : Option Nat)
    (h : MarkState s o) : MarkState (insert_call_sorted s id) o := by
  unfold insert_call_sorted
  cases (getFr s id).entry_step with
  | none => exact MarkState_of_eq s _ o rfl rfl h
  | some es => exact MarkState_of_eq s _ o rfl rfl h

theorem MarkState_ccu (s : BState) (id : Nat) (o : Option Nat)
    (h : MarkState s o) : MarkState (createChildUpdate s id) o := by
  unfold createChildUpdate
  split
  · refine MarkState_modFr s _ _ (fun c => ?_) (fun c => ?_) o h <;> rfl
  · exact h

theorem MarkState_pcu (s : BState) (id : Nat) (o : Option Nat)
    (h : MarkState s o) : MarkState (parentChildUpdate s id) o := by
  unfold parentChildUpdate
  split
  · exact h
  · split
    · split
      · refine MarkState_modFr _ id _ (fun c => ?_) (fun c => ?_) o
          (MarkState_modFr s _ _ (fun c => ?_) (fun c => ?_) o h) <;> rfl
      · refine MarkState_modFr s _ _ (fun c => ?_) (fun c => ?_) o h <;> rfl
    · split
      · refine MarkState_modFr s _ _ (fun c => ?_) (fun c => ?_) o h <;> rfl
      · split
        · refine MarkState_modFr s _ _ (fun c => ?_) (fun c => ?_) o h <;> rfl
        · exact h

theorem MarkState_exitPops (trace : TransactionTrace) (i : Nat) (g : Int)
    (fuel : List Nat) : ∀ (s : BState) (o : Option Nat),
    MarkState s o → MarkState (exitPops trace i g fuel s) o := by
  induction fuel with
  | nil =>
    intro s o h
    exact h
  | cons a fuel ih =>
    intro s o h
    unfold exitPops
    split
    · exact h
    · rename_i id heq
      have h1 : MarkState (modFr s id (closeUpd trace i g (getFr s id))) o :=
        MarkState_modFr s id (closeUpd trace i g (getFr s id))
          (fun c => rfl) (fun c => rfl) o h
      split
      · split
        · exact MarkState_of_eq _ _ o rfl rfl h1
        · exact MarkState_of_eq _ _ o rfl rfl h1
      · exact ih _ o (MarkState_of_eq _ _ o rfl rfl h1)

theorem MarkState_ite (c : Prop) [Decidable c] (a b : BState) (o : Option Nat)
    (ha : MarkState a o) (hb : MarkState b o) : MarkState (if c then a else b) o := by
  split
  · exact ha
  · exact hb

theorem MarkState_foldl {β : Type} (g : BState → β → BState)
    (hg : ∀ s b o, MarkState s o → MarkState (g s b) o) (l : List β) :
    ∀ (s : BState) (o : Option Nat), MarkState s o → MarkState (l.foldl g s) o := by
  induction l with
  | nil =>
    intro s o h
    exact h
  | cons b t ih =>
    intro s o h
    exact ih (g s b) o (hg s b o h)

theorem MarkState_forceClose (trace : TransactionTrace) (s : BState)
    (o : Option Nat) (h : MarkState s o) : MarkState (forceClose trace s) o := by
  unfold forceClose
  refine MarkState_foldl _ ?_ s.call_stack s o h
  intro s b o h
  refine MarkState_modFr s b _ (fun c => ?_) (fun c => ?_) o h <;> rfl

theorem MarkState_reparent (s : BState) (mainId : Nat) (o : Option Nat)
    (h : MarkState s o) : MarkState (reparentLoop s mainId) o := by
  unfold reparentLoop
  refine MarkState_foldl _ ?_ _ s o h
  intro s j o h
  split
  · refine MarkState_ite _ _ _ o
      (MarkState_modFr _ _ _ (fun c => ?_) (fun c => ?_) o
        (MarkState_modFr _ _ _ (fun c => ?_) (fun c => ?_) o
          (MarkState_modFr s _ _ (fun c => ?_) (fun c => ?_) o h)))
      (MarkState_modFr _ _ _ (fun c => ?_) (fun c => ?_) o
        (MarkState_modFr s _ _ (fun c => ?_) (fun c => ?_) o h)) <;> rfl
  · exact h

theorem MarkState_postPass (env : TracerEnv) (trace : TransactionTrace)
    (s : BState) (o : Option Nat) (h : MarkState s o) :
    MarkState (postPass env trace s) o := by
  unfold postPass
  split
  · exact h
  · split
    · refine MarkState_modFr s _ _ (fun c => ?_) (fun c => ?_) o h <;> rfl
    · split
      · split
        · exact h
        · split
          · exact h
          · refine MarkState_reparent _ _ o (MarkState_ics _ _ o
              (MarkState_of_eq _ _ o rfl rfl
                (MarkState_modFr s _ _ (fun c => ?_) (fun c => ?_) o h))) <;> rfl
      · exact h

theorem MarkState_depthReturn (trace : TransactionTrace) (s : BState) (i : Nat)
    (s' : BState) (o : Option Nat) (h : depthReturn trace s i = .ok s')
    (hm : MarkState s o) : MarkState s' o := by
  unfold depthReturn at h
  split at h
  · simp only [pure, Except.pure, Except.ok.injEq] at h
    subst h
    exact hm
  · split at h
    · exact absurd h (by simp)
    · split at h
      · simp only [pure, Except.pure, Except.ok.injEq] at h
        subst h
        refine MarkState_of_eq _ _ o rfl rfl
          (MarkState_modFr s _ _ (fun c => ?_) (fun c => ?_) o hm) <;> rfl
      · simp only [pure, Except.pure, Except.ok.injEq] at h
        subst h
        refine MarkState_of_eq _ _ o rfl rfl
          (MarkState_modFr s _ _ (fun c => ?_) (fun c => ?_) o hm) <;> rfl

/-! ## Freshly created frames never carry the revert flag -/

theorem pec_fresh (env : TracerEnv) (step : TraceStep) (i d : Nat)
    (c : FunctionCall) (h : _process_external_call env step i d = .ok (some c)) :
    c.caused_revert = false := by
  unfold _process_external_call at h
  split at h
  · simp at h
  · simp only [Bind.bind, Except.bind] at h
    cases hcd : extract_calldata_from_step step with
    | error e =>
      rw [hcd] at h
      simp at h
    | ok cd =>
      rw [hcd] at h
      simp only [pure, Except.pure, Except.ok.injEq, Option.some.injEq] at h
      rw [← h]

theorem pcc_fresh (trace : TransactionTrace) (cs : String → String)
    (mc? : Option MCParser) (step : TraceStep) (i d : Nat) (c : FunctionCall)
    (h : _process_create_call trace cs mc? step i d = .ok (some c)) :
    c.caused_revert = false := by
  unfold _process_create_call at h
  simp only [Bind.bind, Except.bind] at h
  cases hp : createStackParams step with
  | error e =>
    rw [hp] at h
    simp at h
  | ok po =>
    rw [hp] at h
    cases po with
    | none => simp [pure, Except.pure] at h
    | some q =>
      obtain ⟨value, offset, size, salt?⟩ := q
      simp only [Bind.bind, Except.bind] at h
      cases ha : _extract_created_address i trace with
      | error e =>
        rw [ha] at h
        simp at h
      | ok created =>
        rw [ha] at h
        simp only [pure, Except.pure, Except.ok.injEq, Option.some.injEq] at h
        rw [← h]

theorem dic_fresh (env : TracerEnv) (st : TracerState) (step : TraceStep)
    (i : Nat) (cc : Option String) (frames : List FunctionCall)
    (c : FunctionCall) (h : _detect_internal_call env st step i cc frames = some c) :
    c.caused_revert = false := by
  unfold _detect_internal_call at h
  split at h
  · simp at h
  · split at h
    · simp at h
    · split at h
      · simp at h
      · simp only [Option.some.injEq] at h
        rw [← h]

theorem getLast?_getD_mem {α : Type} (l : List α) (d : α) (h : l ≠ []) :
    (l.getLast?).getD d ∈ l := by
  induction l with
  | nil => exact absurd rfl h
  | cons a t ih =>
    cases t with
    | nil => simp [List.getLast?_singleton]
    | cons b t2 =>
      rw [List.getLast?_cons_cons]
      exact List.mem_cons_of_mem a (ih (by simp))

theorem dispatchStep_mark (env : TracerEnv) (trace : TransactionTrace)
    (s : BState) (i : Nat) (step : TraceStep) (s' : BState) (o : Option Nat)
    (hstk : ∀ id ∈ s.call_stack, id < s.arena.length)
    (h : dispatchStep env trace s i step = .ok s') (hm : MarkState s o) :
    MarkState s' o ∨
      (o = none ∧ step.op = "REVERT" ∧ s.call_stack ≠ [] ∧
        MarkState s' (some ((getFr s ((s.call_stack.getLast?).getD 0)).call_id))) := by
  unfold dispatchStep at h
  split at h
  · simp only [Bind.bind, Except.bind] at h
    cases hpe : _process_external_call env step i s.current_depth with
    | error e =>
      rw [hpe] at h
      simp at h
    | ok co =>
      rw [hpe] at h
      cases co with
      | none =>
        simp only [pure, Except.pure, Except.ok.injEq] at h
        subst h
        exact Or.inl hm
      | some call0 =>
        simp only [pure, Except.pure, Except.ok.injEq] at h
        subst h
        left
        have hc : ({ call0 with parent_call_id :=
            (s.call_stack.getLast?).map (fun pid => (getFr s pid).call_id) } :
              FunctionCall).caused_revert = false :=
          pec_fresh env step i s.current_depth call0 hpe
        have h1 := MarkState_push s _ o hc hm
        have h2 := MarkState_pcu _ s.arena.length o h1
        have h3 := MarkState_ics _ s.arena.length o h2
        exact MarkState_of_eq _ _ o rfl rfl h3
  · split at h
    · simp only [Bind.bind, Except.bind] at h
      cases hpc : _process_create_call trace env.checksum env.multi_contract
          step i s.current_depth with
      | error e =>
        rw [hpc] at h
        simp at h
      | ok co =>
        rw [hpc] at h
        cases co with
        | none =>
          simp only [pure, Except.pure, Except.ok.injEq] at h
          subst h
          exact Or.inl hm
        | some call0 =>
          simp only [pure, Except.pure, Except.ok.injEq] at h
          subst h
          left
          refine MarkState_of_eq _ _ o rfl rfl
            (MarkState_ics _ s.arena.length o
              (MarkState_ccu _ s.arena.length o (MarkState_push s _ o ?_ hm)))
          exact pcc_fresh trace env.checksum env.multi_contract step i
            s.current_depth call0 hpc
    · split at h
      · cases hdet : _detect_internal_call env s.tracer step i s.current_contract
            (s.call_stack.map (getFr s)) with
        | none =>
          rw [hdet] at h
          simp only [pure, Except.pure, Except.ok.injEq] at h
          subst h
          exact Or.inl hm
        | some call0 =>
          rw [hdet] at h
          simp only [pure, Except.pure, Except.ok.injEq] at h
          subst h
          left
          refine MarkState_of_eq _ _ o rfl rfl (MarkState_ics _ s.arena.length o
            (MarkState_pcu _ s.arena.length o (MarkState_push s _ o ?_ hm)))
          exact dic_fresh env s.tracer step i s.current_contract _ call0 hdet
      · split at h
        · split at h
          · rename_i hcond
            simp only [pure, Except.pure, Except.ok.injEq] at h
            subst h
            obtain ⟨hrev, hne0, hnm⟩ := hcond
            have hne : s.call_stack ≠ [] := fun hemp => hne0 (by rw [hemp]; rfl)
            right
            refine ⟨?_, hrev, hne, ?_⟩
            · cases o with
              | none => rfl
              | some T => exact absurd hm.1 hnm
            · cases o with
              | some T => exact absurd hm.1 hnm
              | none =>
                refine MarkState_exitPops trace i step.gas s.call_stack _ _
                  ⟨rfl, ?_, ?_⟩
                · show markedCount (modAt s.arena ((s.call_stack.getLast?).getD 0)
                      (fun f => { f with caused_revert := true })) = 1
                  exact markedCount_modAt_true s.arena _
                    (hstk _ (getLast?_getD_mem s.call_stack 0 hne)) hm.2
                · intro c hcmem hcr
                  exact marked_modAt_true s.arena _ _ hm.2 rfl c hcmem hcr
          · simp only [pure, Except.pure, Except.ok.injEq] at h
            subst h
            exact Or.inl (MarkState_exitPops trace i step.gas s.call_stack s o hm)
        · simp only [pure, Except.pure, Except.ok.injEq] at h
          subst h
          exact Or.inl hm

/-! ## Shape preservation and the structural invariant -/

theorem SameShape_refl (s : BState) : SameShape s s :=
  ⟨rfl, fun _ => rfl, rfl, fun _ h => h, rfl⟩

theorem SameShape_trans {s1 s2 s3 : BState} (h12 : SameShape s1 s2)
    (h23 : SameShape s2 s3) : SameShape s1 s3 :=
  ⟨h23.1.trans h12.1,
   fun i => (h23.2.1 i).trans (h12.2.1 i),
   h23.2.2.1.trans h12.2.2.1,
   fun id hid => h12.2.2.2.1 id (h23.2.2.2.1 id hid),
   h23.2.2.2.2.trans h12.2.2.2.2⟩

theorem SInv_of_shape (s s' : BState) (hsh : SameShape s s') (h : SInv s) :
    SInv s' := by
  obtain ⟨hlen, hid, ho, hc, hmn⟩ := hsh
  obtain ⟨h1, h2, h3, h4⟩ := h
  refine ⟨?_, ?_, ?_, ?_⟩
  · intro i hi
    rw [hid i]
    exact h1 i (by rw [← hlen]; exact hi)
  · unfold OrderOk at h2 ⊢
    rw [ho, hlen]
    exact h2
  · intro id hidm
    rw [hlen]
    exact h3 id (hc id hidm)
  · intro m hm
    rw [hlen]
    exact h4 m (by rw [← hmn]; exact hm)

theorem SameShape_modFr (s : BState) (id : Nat) (f : FunctionCall → FunctionCall)
    (hg : ∀ c, (f c).call_id = c.call_id) : SameShape s (modFr s id f) := by
  refine ⟨?_, ?_, rfl, fun a h => h, rfl⟩
  · show (modAt s.arena id f).length = s.arena.length
    exact length_modAt s.arena id f
  · intro i
    show ((modAt s.arena id f).getD i default).call_id = _
    rw [getD_modAt]
    split
    · rw [hg]
    · rfl

theorem mem_of_dropLast {α : Type} (l : List α) (a : α) (h : a ∈ l.dropLast) :
    a ∈ l := by
  induction l with
  | nil => simp at h
  | cons b t ih =>
    cases t with
    | nil => simp at h
    | cons c t2 =>
      rw [List.dropLast_cons₂] at h
      rcases List.mem_cons.mp h with h1 | h1
      · rw [h1]
        simp
      · exact List.mem_cons_of_mem b (ih h1)

theorem mem_of_eraseIdx {α : Type} : ∀ (l : List α) (n : Nat) (a : α),
    a ∈ l.eraseIdx n → a ∈ l := by
  intro l
  induction l with
  | nil =>
    intro n a h
    simp [List.eraseIdx] at h
  | cons b t ih =>
    intro n a h
    cases n with
    | zero => exact List.mem_cons_of_mem b h
    | succ n =>
      rcases List.mem_cons.mp h with h1 | h1
      · rw [h1]
        simp
      · exact List.mem_cons_of_mem b (ih n a h1)

theorem SameShape_pcu (s : BState) (id : Nat) :
    SameShape s (parentChildUpdate s id) := by
  unfold parentChildUpdate
  split
  · exact SameShape_refl s
  · split
    · split
      · refine SameShape_trans (SameShape_modFr s _ _ (fun c => ?_))
          (SameShape_modFr _ id _ (fun c => ?_)) <;> rfl
      · refine SameShape_modFr s _ _ (fun c => ?_)
        rfl
    · split
      · refine SameShape_modFr s _ _ (fun c => ?_)
        rfl
      · split
        · refine SameShape_modFr s _ _ (fun c => ?_)
          rfl
        · exact SameShape_refl s

theorem SameShape_ccu (s : BState) (id : Nat) :
    SameShape s (createChildUpdate s id) := by
  unfold createChildUpdate
  split
  · refine SameShape_modFr s _ _ (fun c => ?_)
    rfl
  · exact SameShape_refl s

theorem SameShape_exitPops (trace : TransactionTrace) (i : Nat) (g : Int)
    (fuel : List Nat) : ∀ (s : BState), SameShape s (exitPops trace i g fuel s) := by
  induction fuel with
  | nil =>
    intro s
    exact SameShape_refl s
  | cons a fuel ih =>
    intro s
    unfold exitPops
    split
    · exact SameShape_refl s
    · rename_i id heq
      have hmod : SameShape s (modFr s id (closeUpd trace i g (getFr s id))) :=
        SameShape_modFr s id (closeUpd trace i g (getFr s id)) (fun c => rfl)
      split
      · split
        · exact SameShape_trans hmod
            ⟨rfl, fun i => rfl, rfl, fun a h => mem_of_dropLast _ a h, rfl⟩
        · exact SameShape_trans hmod
            ⟨rfl, fun i => rfl, rfl, fun a h => mem_of_dropLast _ a h, rfl⟩
      · refine SameShape_trans ?_ (ih _)
        exact SameShape_trans hmod
          ⟨rfl, fun i => rfl, rfl, fun a h => mem_of_dropLast _ a h, rfl⟩

theorem SameShape_depthReturn (trace : TransactionTrace) (s : BState) (i : Nat)
    (s' : BState) (h : depthReturn trace s i = .ok s') : SameShape s s' := by
  unfold depthReturn at h
  split at h
  · simp only [pure, Except.pure, Except.ok.injEq] at h
    subst h
    exact SameShape_refl s
  · split at h
    · exact absurd h (by simp)
    · split at h
      · simp only [pure, Except.pure, Except.ok.injEq] at h
        subst h
        refine SameShape_trans (SameShape_modFr s _ _ (fun c => ?_))
          ⟨rfl, fun i => rfl, rfl, fun a ha => mem_of_eraseIdx _ _ a ha, rfl⟩
        rfl
      · simp only [pure, Except.pure, Except.ok.injEq] at h
        subst h
        refine SameShape_trans (SameShape_modFr s _ _ (fun c => ?_))
          ⟨rfl, fun i => rfl, rfl, fun a ha => mem_of_eraseIdx _ _ a ha, rfl⟩
        rfl

theorem SameShape_foldl {β : Type} (g : BState → β → BState)
    (hg : ∀ s b, SameShape s (g s b)) (l : List β) :
    ∀ s : BState, SameShape s (l.foldl g s) := by
  induction l with
  | nil =>
    intro s
    exact SameShape_refl s
  | cons b t ih =>
    intro s
    exact SameShape_trans (hg s b) (ih (g s b))

theorem SameShape_forceClose (trace : TransactionTrace) (s : BState) :
    SameShape s (forceClose trace s) := by
  unfold forceClose
  refine SameShape_foldl _ ?_ s.call_stack s
  intro s b
  refine SameShape_modFr s b _ (fun c => ?_)
  rfl

theorem SameShape_reparent (s : BState) (mainId : Nat) :
    SameShape s (reparentLoop s mainId) := by
  unfold reparentLoop
  refine SameShape_foldl _ ?_ _ s
  intro s j
  split
  · lift_lets
    intro s1 s2
    have h1 : SameShape s s1 := SameShape_modFr s _ _ (fun c => rfl)
    have h2 : SameShape s s2 :=
      SameShape_trans h1 (SameShape_modFr s1 _ _ (fun c => rfl))
    split
    · refine SameShape_trans h2 (SameShape_modFr s2 _ _ (fun c => ?_))
      rfl
    · exact h2
  · exact SameShape_refl s

theorem ics_arena (s : BState) (id : Nat) :
    (insert_call_sorted s id).arena = s.arena := by
  unfold insert_call_sorted
  split
  · rfl
  · rfl

theorem ics_stack (s : BState) (id : Nat) :
    (insert_call_sorted s id).call_stack = s.call_stack := by
  unfold insert_call_sorted
  split
  · rfl
  · rfl

theorem ics_mainId (s : BState) (id : Nat) :
    (insert_call_sorted s id).mainId = s.mainId := by
  unfold insert_call_sorted
  split
  · rfl
  · rfl

theorem SInv_create_step (s : BState) (call : FunctionCall) (s2 s3 : BState)
    (hsh : SameShape (pushNewFrame s call) s2)
    (ha3 : s3.arena = s2.arena)
    (ho3 : s3.order = (insert_call_sorted s2 s.arena.length).order)
    (hc3 : ∀ id ∈ s3.call_stack, id ∈ s2.call_stack ∨ id = s.arena.length)
    (hm3 : s3.mainId = s2.mainId)
    (h : SInv s) : SInv s3 := by
  obtain ⟨hlen, hid, ho, hc, hmn⟩ := hsh
  obtain ⟨h1, h2, h3, h4⟩ := h
  have hplen : (pushNewFrame s call).arena.length = s.arena.length + 1 := by
    show (s.arena ++ [_]).length = _
    rw [List.length_append]
    rfl
  have hlen3 : s3.arena.length = s.arena.length + 1 := by
    rw [ha3]
    exact hlen.trans hplen
  refine ⟨?_, ?_, ?_, ?_⟩
  · intro i hi
    rw [hlen3] at hi
    rw [ha3, hid i]
    show ((s.arena ++ [{ call with call_id := s.arena.length }]).getD i default).call_id = i
    rcases Nat.lt_or_ge i s.arena.length with hlt | hge
    · rw [getD_append_lt s.arena _ i default hlt]
      exact h1 i hlt
    · have hieq : i = s.arena.length := by omega
      subst hieq
      rw [getD_append_len]
  · show s3.order.Perm (List.range s3.arena.length)
    rw [ho3, hlen3, List.range_succ]
    have hord : (insert_call_sorted s2 s.arena.length).order.Perm
        (s.arena.length :: s2.order) := by
      unfold insert_call_sorted
      split
      · exact List.perm_append_singleton _ _
      · exact insertSortedAux_perm _ _ _ _
    refine hord.trans ?_
    rw [ho]
    show (s.arena.length :: s.order).Perm _
    exact (h2.cons _).trans (List.perm_append_singleton _ _).symm
  · intro id hid3
    rw [hlen3]
    rcases hc3 id hid3 with hmem | heq
    · have hlt := h3 id (hc id hmem)
      omega
    · omega
  · intro m hm
    rw [hlen3]
    rw [hm3, hmn] at hm
    have := h4 m hm
    omega

theorem dispatchStep_sinv (env : TracerEnv) (trace : TransactionTrace)
    (s : BState) (i : Nat) (step : TraceStep) (s' : BState)
    (h : dispatchStep env trace s i step = .ok s') (hinv : SInv s) : SInv s' := by
  unfold dispatchStep at h
  split at h
  · simp only [Bind.bind, Except.bind] at h
    cases hpe : _process_external_call env step i s.current_depth with
    | error e =>
      rw [hpe] at h
      simp at h
    | ok co =>
      rw [hpe] at h
      cases co with
      | none =>
        simp only [pure, Except.pure, Except.ok.injEq] at h
        subst h
        exact hinv
      | some call0 =>
        simp only [pure, Except.pure, Except.ok.injEq] at h
        subst h
        refine SInv_create_step s _ _ _ (SameShape_pcu _ s.arena.length)
          (ics_arena _ _) rfl ?_ (ics_mainId _ _) hinv
        intro id hid
        rcases List.mem_append.mp hid with h1 | h1
        · rw [ics_stack] at h1
          exact Or.inl h1
        · exact Or.inr (by simpa using h1)
  · split at h
    · simp only [Bind.bind, Except.bind] at h
      cases hpc : _process_create_call trace env.checksum env.multi_contract
          step i s.current_depth with
      | error e =>
        rw [hpc] at h
        simp at h
      | ok co =>
        rw [hpc] at h
        cases co with
        | none =>
          simp only [pure, Except.pure, Except.ok.injEq] at h
          subst h
          exact hinv
        | some call0 =>
          simp only [pure, Except.pure, Except.ok.injEq] at h
          subst h
          refine SInv_create_step s _ _ _ (SameShape_ccu _ s.arena.length)
            (ics_arena _ _) rfl ?_ (ics_mainId _ _) hinv
          intro id hid
          rcases List.mem_append.mp hid with h1 | h1
          · rw [ics_stack] at h1
            exact Or.inl h1
          · exact Or.inr (by simpa using h1)
    · split at h
      · cases hdet : _detect_internal_call env s.tracer step i s.current_contract
            (s.call_stack.map (getFr s)) with
        | none =>
          rw [hdet] at h
          simp only [pure, Except.pure, Except.ok.injEq] at h
          subst h
          exact hinv
        | some call0 =>
          rw [hdet] at h
          simp only [pure, Except.pure, Except.ok.injEq] at h
          subst h
          refine SInv_create_step s _ _ _ (SameShape_pcu _ s.arena.length)
            (ics_arena _ _) rfl ?_ (ics_mainId _ _) hinv
          intro id hid
          rcases List.mem_append.mp hid with h1 | h1
          · rw [ics_stack] at h1
            exact Or.inl h1
          · exact Or.inr (by simpa using h1)
      · split at h
        · split at h
          · simp only [pure, Except.pure, Except.ok.injEq] at h
            subst h
            refine SInv_of_shape s _ ?_ hinv
            refine SameShape_trans ?_ (SameShape_exitPops trace i step.gas s.call_stack _)
            refine SameShape_trans (SameShape_modFr s _ _ (fun c => ?_))
              ⟨rfl, fun i => rfl, rfl, fun a ha => ha, rfl⟩
            rfl
          · simp only [pure, Except.pure, Except.ok.injEq] at h
            subst h
            exact SInv_of_shape s _ (SameShape_exitPops trace i step.gas s.call_stack s) hinv
        · simp only [pure, Except.pure, Except.ok.injEq] at h
          subst h
          exact hinv

theorem initState_none (env : TracerEnv) (st : TracerState)
    (trace : TransactionTrace) : MarkState (initState env st trace) none := by
  unfold initState
  by_cases hsel : trace.input_data ≠ "" ∧ pyLen trace.input_data ≥ 10
  · rw [if_pos hsel]
    refine ⟨rfl, ?_⟩
    rw [marked_eq_zero_iff]
    intro c hc
    refine forall_mem_modAt (P := fun c => c.caused_revert = false) _ 0 _ ?_ ?_ c hc
    · intro c2 hc2
      rcases List.mem_append.mp hc2 with h1 | h1
      · rw [List.mem_singleton.mp h1]
        rfl
      · rw [List.mem_singleton.mp h1]
    · intro c2 hp
      exact hp
  · rw [if_neg hsel]
    refine ⟨rfl, ?_⟩
    rw [marked_eq_zero_iff]
    intro c hc
    rw [List.mem_singleton.mp hc]
    rfl

theorem initState_sinv (env : TracerEnv) (st : TracerState)
    (trace : TransactionTrace) : SInv (initState env st trace) := by
  unfold initState
  by_cases hsel : trace.input_data ≠ "" ∧ pyLen trace.input_data ≥ 10
  · rw [if_pos hsel]
    refine ⟨?_, ?_, ?_, ?_⟩
    · intro i hi
      have hi2 : i < 2 := by simpa [length_modAt] using hi
      rcases i with _ | (_ | n)
      · rfl
      · rfl
      · omega
    · exact List.Perm.refl _
    · intro id hid
      have : id = 0 ∨ id = 1 := by simpa using hid
      rcases this with h1 | h1
      · subst h1
        exact Nat.zero_lt_two
      · subst h1
        exact Nat.one_lt_two
    · intro m hm
      have h1 : some 1 = some m := hm
      injection h1 with h1
      subst h1
      exact Nat.one_lt_two
  · rw [if_neg hsel]
    refine ⟨?_, ?_, ?_, ?_⟩
    · intro i hi
      have hi2 : i < 1 := by simpa using hi
      rcases i with _ | n
      · rfl
      · omega
    · exact List.Perm.refl _
    · intro id hid
      have : id = 0 := by simpa using hid
      subst this
      exact Nat.zero_lt_one
    · intro m hm
      exact Option.noConfusion (show (none : Option Nat) = some m from hm)

theorem processStep_pres (env : TracerEnv) (trace : TransactionTrace)
    (s : BState) (i : Nat) (step : TraceStep) (s' : BState) (o : Option Nat)
    (hinv : SInv s) (hm : MarkState s o)
    (h : processStep env trace s i step = .ok s') :
    SInv s' ∧ (MarkState s' o ∨
      (o = none ∧ step.op = "REVERT" ∧ ∃ T, MarkState s' (some T))) := by
  unfold processStep at h
  simp only [Bind.bind, Except.bind] at h
  split at h
  · cases hdr : depthReturn trace s i with
    | error e =>
      rw [hdr] at h
      simp at h
    | ok sD =>
      rw [hdr] at h
      have hshD : SameShape s ({ sD with prev_depth := step.depth }) :=
        SameShape_trans (SameShape_depthReturn trace s i sD hdr)
          ⟨rfl, fun _ => rfl, rfl, fun a ha => ha, rfl⟩
      have hinvD : SInv ({ sD with prev_depth := step.depth }) :=
        SInv_of_shape s _ hshD hinv
      have hmD : MarkState ({ sD with prev_depth := step.depth }) o :=
        MarkState_of_eq sD _ o rfl rfl (MarkState_depthReturn trace s i sD o hdr hm)
      have hd := dispatchStep_mark env trace _ i step s' o hinvD.2.2.1 h hmD
      refine ⟨dispatchStep_sinv env trace _ i step s' h hinvD, ?_⟩
      rcases hd with h1 | ⟨ho, hop, hne, hmk⟩
      · exact Or.inl h1
      · exact Or.inr ⟨ho, hop, _, hmk⟩
  · simp only [pure, Except.pure] at h
    have hshM : SameShape s ({ s with prev_depth := step.depth }) :=
      ⟨rfl, fun _ => rfl, rfl, fun a ha => ha, rfl⟩
    have hinvM : SInv ({ s with prev_depth := step.depth }) :=
      SInv_of_shape s _ hshM hinv
    have hmM : MarkState ({ s with prev_depth := step.depth }) o :=
      MarkState_of_eq s _ o rfl rfl hm
    have hd := dispatchStep_mark env trace _ i step s' o hinvM.2.2.1 h hmM
    refine ⟨dispatchStep_sinv env trace _ i step s' h hinvM, ?_⟩
    rcases hd with h1 | ⟨ho, hop, hne, hmk⟩
    · exact Or.inl h1
    · exact Or.inr ⟨ho, hop, _, hmk⟩

theorem runSteps_some (env : TracerEnv) (trace : TransactionTrace)
    (l : List (Nat × TraceStep)) : ∀ (s s' : BState) (T : Nat),
    runSteps env trace s l = .ok s' → SInv s → MarkState s (some T) →
    SInv s' ∧ MarkState s' (some T) := by
  induction l with
  | nil =>
    intro s s' T h hinv hm
    simp only [runSteps, pure, Except.pure, Except.ok.injEq] at h
    subst h
    exact ⟨hinv, hm⟩
  | cons p t ih =>
    intro s s' T h hinv hm
    obtain ⟨i, stp⟩ := p
    simp only [runSteps, Bind.bind, Except.bind] at h
    cases hp : processStep env trace s i stp with
    | error e =>
      rw [hp] at h
      simp at h
    | ok s1 =>
      rw [hp] at h
      rcases processStep_pres env trace s i stp s1 (some T) hinv hm hp with
        ⟨hinv1, h1 | ⟨hcontra, _, _⟩⟩
      · exact ih s1 s' T h hinv1 h1
      · exact absurd hcontra (by simp)

theorem runSteps_none (env : TracerEnv) (trace : TransactionTrace)
    (l : List (Nat × TraceStep)) : ∀ (s s' : BState),
    runSteps env trace s l = .ok s' → SInv s → MarkState s none →
    SInv s' ∧ (MarkState s' none ∨
      ((∃ p ∈ l, p.2.op = "REVERT") ∧ ∃ T, MarkState s' (some T))) := by
  induction l with
  | nil =>
    intro s s' h hinv hm
    simp only [runSteps, pure, Except.pure, Except.ok.injEq] at h
    subst h
    exact ⟨hinv, Or.inl hm⟩
  | cons p t ih =>
    intro s s' h hinv hm
    obtain ⟨i, stp⟩ := p
    simp only [runSteps, Bind.bind, Except.bind] at h
    cases hp : processStep env trace s i stp with
    | error e =>
      rw [hp] at h
      simp at h
    | ok s1 =>
      rw [hp] at h
      rcases processStep_pres env trace s i stp s1 none hinv hm hp with
        ⟨hinv1, h1 | ⟨_, hop, T, hmk⟩⟩
      · rcases ih s1 s' h hinv1 h1 with ⟨hinv2, h2 | ⟨⟨q, hq, hqop⟩, hT⟩⟩
        · exact ⟨hinv2, Or.inl h2⟩
        · exact ⟨hinv2, Or.inr ⟨⟨q, List.mem_cons_of_mem _ hq, hqop⟩, hT⟩⟩
      · rcases runSteps_some env trace t s1 s' T h hinv1 hmk with ⟨hinv2, hm2⟩
        exact ⟨hinv2, Or.inr ⟨⟨(i, stp), by simp, hop⟩, T, hm2⟩⟩

theorem SInv_order_perm (s s' : BState) (ha : s'.arena = s.arena)
    (hc : ∀ id ∈ s'.call_stack, id ∈ s.call_stack) (hmn : s'.mainId = s.mainId)
    (hperm : s'.order.Perm s.order) (h : SInv s) : SInv s' := by
  obtain ⟨h1, h2, h3, h4⟩ := h
  refine ⟨?_, ?_, ?_, ?_⟩
  · intro i hi
    rw [ha] at hi ⊢
    exact h1 i hi
  · unfold OrderOk at h2 ⊢
    rw [ha]
    exact hperm.trans h2
  · intro id hid
    rw [ha]
    exact h3 id (hc id hid)
  · intro m hm
    rw [ha]
    exact h4 m (hmn ▸ hm)

theorem SInv_postPass (env : TracerEnv) (trace : TransactionTrace) (s : BState)
    (h : SInv s) : SInv (postPass env trace s) := by
  unfold postPass
  split
  · exact h
  · split
    · refine SInv_of_shape s _ (SameShape_modFr s _ _ (fun c => ?_)) h
      rfl
    · split
      · split
        · exact h
        · rename_i mainId hmain
          split
          · exact h
          · lift_lets
            intro s1
            have hs1sh : SameShape s s1 := SameShape_modFr s mainId _ (fun c => rfl)
            have hsA : SInv s1 := SInv_of_shape s s1 hs1sh h
            have hmlt : mainId < s.arena.length := h.2.2.2 mainId hmain
            have hmem : mainId ∈ s1.order := by
              show mainId ∈ s.order
              rw [h.2.1.mem_iff]
              exact List.mem_range.mpr hmlt
            refine SInv_of_shape _ _ (SameShape_reparent _ mainId) ?_
            refine SInv_order_perm s1 _ ?_ ?_ ?_ ?_ hsA
            · rw [ics_arena]
            · intro id hid
              rw [ics_stack] at hid
              exact hid
            · rw [ics_mainId]
            · have hord : (insert_call_sorted
                  { s1 with order := s1.order.erase mainId } mainId).order.Perm
                  (mainId :: s1.order.erase mainId) := by
                unfold insert_call_sorted
                split
                · exact List.perm_append_singleton _ _
                · exact insertSortedAux_perm _ _ _ _
              exact hord.trans (List.perm_cons_erase hmem).symm
      · exact h

/-! ## From the final builder state to the produced frame list -/

theorem getD_ge {α : Type} : ∀ (l : List α) (k : Nat) (d : α), l.length ≤ k →
    l.getD k d = d := by
  intro l
  induction l with
  | nil =>
    intro k d h
    cases k <;> rfl
  | cons a t ih =>
    intro k d h
    cases k with
    | zero => simp at h
    | succ k => exact ih k d (by simpa using h)

theorem calls_count_eq (s : BState) (h2 : OrderOk s) :
    (s.order.map (getFr s)).countP (·.caused_revert) = markedCount s.arena := by
  unfold markedCount
  rw [List.countP_map]
  rw [h2.countP_eq _]
  rw [← List.countP_map]
  rw [show (List.range s.arena.length).map (getFr s) = s.arena from
    map_getD_range s.arena default]

theorem calls_marked_id (s : BState) (T : Nat)
    (hmark : ∀ c ∈ s.arena, c.caused_revert = true → c.call_id = T) :
    ∀ c ∈ s.order.map (getFr s), c.caused_revert = true → c.call_id = T := by
  intro c hc hcr
  rcases List.mem_map.mp hc with ⟨id, hid, heq⟩
  subst heq
  by_cases hlt : id < s.arena.length
  · exact hmark _ (getD_mem s.arena id default hlt) hcr
  · exfalso
    have hdef : getFr s id = default := getD_ge s.arena id default (le_of_not_lt hlt)
    rw [hdef] at hcr
    exact absurd hcr (by decide)

theorem runSteps_append (env : TracerEnv) (trace : TransactionTrace)
    (l1 l2 : List (Nat × TraceStep)) : ∀ s : BState,
    runSteps env trace s (l1 ++ l2) =
      Except.bind (runSteps env trace s l1) (fun s2 => runSteps env trace s2 l2) := by
  induction l1 with
  | nil =>
    intro s
    rfl
  | cons p t ih =>
    intro s
    obtain ⟨i, stp⟩ := p
    show runSteps env trace s ((i, stp) :: (t ++ l2)) = _
    simp only [runSteps, Bind.bind, Except.bind]
    cases hp : processStep env trace s i stp with
    | error e => rfl
    | ok s1 => exact ih s1

theorem drop_eq_getD_cons {α : Type} : ∀ (l : List α) (k : Nat) (d : α),
    k < l.length → l.drop k = l.getD k d :: l.drop (k + 1) := by
  intro l
  induction l with
  | nil =>
    intro k d h
    simp at h
  | cons a t ih =>
    intro k d h
    cases k with
    | zero => rfl
    | succ k =>
      show t.drop k = t.getD k d :: t.drop (k + 1)
      exact ih k d (by simpa using h)

theorem enumerateFrom_mem_snd {α : Type} (l : List α) : ∀ (j : Nat) (p : Nat × α),
    p ∈ enumerateFrom j l → p.2 ∈ l := by
  induction l with
  | nil =>
    intro j p h
    simp [enumerateFrom] at h
  | cons a t ih =>
    intro j p h
    rcases List.mem_cons.mp h with h1 | h1
    · rw [h1]
      simp
    · exact List.mem_cons_of_mem a (ih (j + 1) p h1)

theorem analyze_run (env : TracerEnv) (st : TracerState) (trace : TransactionTrace)
    (calls : List FunctionCall) (tr : TracerState)
    (h : analyze_function_calls env st trace = .ok (calls, tr)) :
    ∃ sEnd, runSteps env trace (initState env st trace) (enumerate trace.steps) =
        .ok sEnd ∧
      calls = (postPass env trace (forceClose trace sEnd)).order.map
        (getFr (postPass env trace (forceClose trace sEnd))) := by
  unfold analyze_function_calls at h
  simp only [Bind.bind, Except.bind] at h
  cases hr : runSteps env trace (initState env st trace) (enumerate trace.steps) with
  | error e =>
    rw [hr] at h
    simp at h
  | ok sEnd =>
    rw [hr] at h
    simp only [pure, Except.pure, Except.ok.injEq, Prod.mk.injEq] at h
    exact ⟨sEnd, rfl, h.1.symm⟩

theorem analyze_after (env : TracerEnv) (st : TracerState) (trace : TransactionTrace)
    (k : Nat) (sk : BState) (calls : List FunctionCall) (tr : TracerState)
    (hk : k < trace.steps.length)
    (hsk : stateAfter env st trace k = .ok sk)
    (h : analyze_function_calls env st trace = .ok (calls, tr)) :
    ∃ s1 sEnd,
      processStep env trace sk k (trace.steps.getD k default) = .ok s1 ∧
      runSteps env trace s1 ((enumerate trace.steps).drop (k + 1)) = .ok sEnd ∧
      calls = (postPass env trace (forceClose trace sEnd)).order.map
        (getFr (postPass env trace (forceClose trace sEnd))) := by
  obtain ⟨sEnd, hrun, hcalls⟩ := analyze_run env st trace calls tr h
  have hlen : (enumerate trace.steps).length = trace.steps.length :=
    length_enumerateFrom trace.steps 0
  have hgetd : (enumerate trace.steps).getD k (0, default) =
      (k, trace.steps.getD k default) := by
    have := getD_enumerateFrom trace.steps 0 k (0, default) default hk
    simpa using this
  have hdrop : (enumerate trace.steps).drop k =
      (k, trace.steps.getD k default) :: (enumerate trace.steps).drop (k + 1) := by
    rw [drop_eq_getD_cons (enumerate trace.steps) k (0, default)
      (by rw [hlen]; exact hk)]
    rw [hgetd]
  have hsplit : enumerate trace.steps =
      (enumerate trace.steps).take k ++
        ((k, trace.steps.getD k default) :: (enumerate trace.steps).drop (k + 1)) := by
    conv_lhs => rw [← List.take_append_drop k (enumerate trace.steps)]
    rw [hdrop]
  rw [hsplit, runSteps_append] at hrun
  unfold stateAfter at hsk
  rw [hsk] at hrun
  simp only [Except.bind] at hrun
  simp only [runSteps, Bind.bind, Except.bind] at hrun
  cases hp : processStep env trace sk k (trace.steps.getD k default) with
  | error e =>
    rw [hp] at hrun
    simp at hrun
  | ok s1 =>
    rw [hp] at hrun
    exact ⟨s1, sEnd, rfl, hrun, hcalls⟩

/-! ## Claim C1: revert marking -/

/-- **C1, amended** — Revert marking. (i) The frame list produced by
`analyze_function_calls` never carries more than one `caused_revert`
flag.  (ii) If the trace contains no `REVERT` step, no frame is flagged.
(iii) If the analysis reaches a `REVERT` step `k` with no depth drop to
handle, the flag not yet set, and the builder's call stack non-empty —
the first marking opportunity — then exactly one produced frame is
flagged, and its `call_id` is the id on top of the builder's call stack
at step `k`, i.e. the deepest still-open frame.  The original claim
promises a marked frame for *every* trace containing a `REVERT`; that
fails when the call stack is already empty at each `REVERT` (the `STOP`
before the `REVERT` in `traceStopRevert` closes every frame), in which
case no frame is flagged — see the counterexample. -/
theorem revert_marking_spec :
    (∀ (env : TracerEnv) (st : TracerState) (trace : TransactionTrace)
       (calls : List FunctionCall) (tr : TracerState),
       analyze_function_calls env st trace = .ok (calls, tr) →
       calls.countP (·.caused_revert) ≤ 1) ∧
    (∀ (env : TracerEnv) (st : TracerState) (trace : TransactionTrace)
       (calls : List FunctionCall) (tr : TracerState),
       analyze_function_calls env st trace = .ok (calls, tr) →
       (∀ stp ∈ trace.steps, stp.op ≠ "REVERT") →
       calls.countP (·.caused_revert) = 0) ∧
    (∀ (env : TracerEnv) (st : TracerState) (trace : TransactionTrace)
       (k : Nat) (sk : BState) (calls : List FunctionCall) (tr : TracerState),
       k < trace.steps.length →
       stateAfter env st trace k = .ok sk →
       (trace.steps.getD k default).op = "REVERT" →
       ¬(k > 0 ∧ (trace.steps.getD k default).depth < sk.prev_depth) →
       sk.revertMarked = false →
       sk.call_stack ≠ [] →
       analyze_function_calls env st trace = .ok (calls, tr) →
       calls.countP (·.caused_revert) = 1 ∧
       ∀ c ∈ calls, c.caused_revert = true →
         c.call_id = (sk.call_stack.getLast?).getD 0) := by
  refine ⟨?_, ?_, ?_⟩
  · intro env st trace calls tr h
    obtain ⟨sEnd, hrun, hcalls⟩ := analyze_run env st trace calls tr h
    rcases runSteps_none env trace _ _ _ hrun (initState_sinv env st trace)
      (initState_none env st trace) with ⟨hinvE, hE⟩
    have hinv2 : SInv (postPass env trace (forceClose trace sEnd)) :=
      SInv_postPass env trace _
        (SInv_of_shape _ _ (SameShape_forceClose trace sEnd) hinvE)
    subst hcalls
    rw [calls_count_eq _ hinv2.2.1]
    rcases hE with hnone | ⟨_, T, hsome⟩
    · have h0 : MarkState (postPass env trace (forceClose trace sEnd)) none :=
        MarkState_postPass env trace _ none
          (MarkState_forceClose trace sEnd none hnone)
      rw [h0.2]
      omega
    · have h1 : MarkState (postPass env trace (forceClose trace sEnd)) (some T) :=
        MarkState_postPass env trace _ _
          (MarkState_forceClose trace sEnd _ hsome)
      rw [h1.2.1]
  · intro env st trace calls tr h hnorev
    obtain ⟨sEnd, hrun, hcalls⟩ := analyze_run env st trace calls tr h
    rcases runSteps_none env trace _ _ _ hrun (initState_sinv env st trace)
      (initState_none env st trace) with ⟨hinvE, hE⟩
    have hinv2 : SInv (postPass env trace (forceClose trace sEnd)) :=
      SInv_postPass env trace _
        (SInv_of_shape _ _ (SameShape_forceClose trace sEnd) hinvE)
    subst hcalls
    rw [calls_count_eq _ hinv2.2.1]
    rcases hE with hnone | ⟨⟨p, hp, hpop⟩, _⟩
    · have h0 : MarkState (postPass env trace (forceClose trace sEnd)) none :=
        MarkState_postPass env trace _ none
          (MarkState_forceClose trace sEnd none hnone)
      exact h0.2
    · exact absurd hpop (hnorev p.2 (enumerateFrom_mem_snd trace.steps 0 p hp))
  · intro env st trace k sk calls tr hk hsk hop hnd hrm hne h
    obtain ⟨s1, sEnd, hp, hrun, hcalls⟩ :=
      analyze_after env st trace k sk calls tr hk hsk h
    have hpre : SInv sk ∧ MarkState sk none := by
      unfold stateAfter at hsk
      rcases runSteps_none env trace _ _ _ hsk (initState_sinv env st trace)
        (initState_none env st trace) with ⟨hinvk, hk2⟩
      rcases hk2 with hn | ⟨_, T, hsomek⟩
      · exact ⟨hinvk, hn⟩
      · have hx := hsomek.1
        rw [hrm] at hx
        exact absurd hx (by simp)
    obtain ⟨hinvk, hmk0⟩ := hpre
    have hinv1 : SInv s1 :=
      (processStep_pres env trace sk k (trace.steps.getD k default) s1 none
        hinvk hmk0 hp).1
    unfold processStep at hp
    simp only [Bind.bind, Except.bind] at hp
    rw [if_neg hnd] at hp
    simp only [pure, Except.pure] at hp
    unfold dispatchStep at hp
    rw [hop] at hp
    rw [if_neg (by decide : ¬isExternalType "REVERT" = true)] at hp
    rw [if_neg (by decide :
      ¬(decide ("REVERT" = "CREATE") || decide ("REVERT" = "CREATE2")) = true)] at hp
    rw [if_neg (by decide : ¬("REVERT" : String) = "JUMPDEST")] at hp
    rw [if_pos (by decide :
      (decide ("REVERT" = "RETURN") || decide ("REVERT" = "REVERT") ||
        decide ("REVERT" = "STOP")) = true)] at hp
    rw [if_pos (show ("REVERT" : String) = "REVERT" ∧
        ¬({ sk with prev_depth := (trace.steps.getD k default).depth } :
            BState).call_stack.isEmpty = true ∧
        ¬({ sk with prev_depth := (trace.steps.getD k default).depth } :
            BState).revertMarked = true from
      ⟨rfl,
       fun hemp => hne (by simpa using
         (show sk.call_stack.isEmpty = true from hemp)),
       fun hrv => absurd (show sk.revertMarked = true from hrv)
         (by rw [hrm]; simp)⟩)] at hp
    simp only [pure, Except.pure, Except.ok.injEq] at hp
    have hmk1 : MarkState s1
        (some ((getFr sk ((sk.call_stack.getLast?).getD 0)).call_id)) := by
      rw [← hp]
      refine MarkState_exitPops trace k _ _ _ _ ⟨rfl, ?_, ?_⟩
      · show markedCount (modAt sk.arena ((sk.call_stack.getLast?).getD 0)
            (fun f => { f with caused_revert := true })) = 1
        exact markedCount_modAt_true sk.arena _
          (hinvk.2.2.1 _ (getLast?_getD_mem sk.call_stack 0 hne)) hmk0.2
      · intro c hcmem hcr
        exact marked_modAt_true sk.arena _ _ hmk0.2 rfl c hcmem hcr
    have hTtop : (getFr sk ((sk.call_stack.getLast?).getD 0)).call_id =
        (sk.call_stack.getLast?).getD 0 :=
      hinvk.1 _ (hinvk.2.2.1 _ (getLast?_getD_mem sk.call_stack 0 hne))
    rcases runSteps_some env trace _ s1 sEnd _ hrun hinv1 hmk1 with ⟨hinvE, hmkE⟩
    have hmkF : MarkState (postPass env trace (forceClose trace sEnd))
        (some ((getFr sk ((sk.call_stack.getLast?).getD 0)).call_id)) :=
      MarkState_postPass env trace _ _ (MarkState_forceClose trace sEnd _ hmkE)
    have hinvF : SInv (postPass env trace (forceClose trace sEnd)) :=
      SInv_postPass env trace _
        (SInv_of_shape _ _ (SameShape_forceClose trace sEnd) hinvE)
    subst hcalls
    constructor
    · rw [calls_count_eq _ hinvF.2.1, hmkF.2.1]
    · intro c hc hcr
      have hcid := calls_marked_id _ _ hmkF.2.2 c hc hcr
      rw [hTtop] at hcid
      exact hcid

/-- Witness for C1: on `traceRevert` (a single `REVERT` at depth 1 while
the dispatcher frame is open) the analysis flags exactly one frame, and
its id is the stack top (the dispatcher, id 0). -/
theorem revert_marking_spec_witness :
    callsRev.countP (·.caused_revert) = 1 ∧
    ∀ c ∈ callsRev, c.caused_revert = true →
      c.call_id = (sRev.call_stack.getLast?).getD 0 :=
  revert_marking_spec.2.2 envBase stEmpty traceRevert 0 sRev callsRev trRev
    (by decide) rfl rfl (by simp) rfl (by decide) rfl

/-- **C1, counterexample** — `traceStopRevert` contains a `REVERT` step,
yet the analysis flags no frame at all: the `STOP` at step 0 already
popped every frame off the builder's call stack, so the `REVERT` at
step 1 marks nothing. -/
theorem revert_unmarked_counterexample :
    (traceStopRevert.steps.getD 1 default).op = "REVERT" ∧
    (analyze_function_calls envBase stEmpty traceStopRevert).map
        (fun r => r.1.countP (·.caused_revert)) = .ok 0 :=
  ⟨rfl, rfl⟩

/-! ## Claim C8: `decode_value` on `uintN` / `intN` -/

/-- **C8** — For a raw hex word whose digits parse to the unsigned value
`v`, `decode_value` returns `v` itself for `uintN` (the declared width is
not consulted), and the two's-complement reinterpretation at the declared
width `N` for `intN`: `v` when `v < 2^(N-1)`, and `v - 2^N` otherwise.
`tyN` is the width part of the type string (so the type is `"int" ++ tyN`),
with `pyIntDec? tyN = some N` saying that `N` is the declared bit width. -/
theorem decode_value_int_uint_spec (cs : String → String) (w tyN : String)
    (N : Nat) (v : Nat)
    (hv : pyIntHex? (if pyStarts w "0x" then pyDrop w 2 else w) = some v)
    (hN : pyIntDec? tyN = some N) :
    decode_value cs w ("uint" ++ tyN) = .int v ∧
    decode_value cs w ("int" ++ tyN) =
      (if v < 2 ^ (N - 1) then PyVal.int v else PyVal.int ((v : Int) - 2 ^ N)) := by
  have hw : w ≠ "" := by
    intro h
    subst h
    simp [pyStarts, pyIntHex?, List.isPrefixOf, hexDigitsVal?] at hv
  have huint : pyStarts ("uint" ++ tyN) "uint" = true := by
    have : ("uint" : String) = String.mk ['u', 'i', 'n', 't'] := rfl
    simp [pyStarts, String.data_append, List.isPrefixOf]
  have hint : pyStarts ("int" ++ tyN) "int" = true := by
    simp [pyStarts, String.data_append, List.isPrefixOf]
  have hint_not_uint : pyStarts ("int" ++ tyN) "uint" = false := by
    simp [pyStarts, String.data_append, List.isPrefixOf]
  have hne256 : ("int" ++ tyN) ≠ "uint256" := by
    intro h
    have := congrArg String.data h
    simp [String.data_append] at this
  constructor
  · have hc1 : (decide (("uint" ++ tyN) = "uint256") || pyStarts ("uint" ++ tyN) "uint") = true := by
      rw [huint]
      exact Bool.or_true _
    unfold decode_value
    rw [if_neg hw, hc1, if_pos rfl, hv]
  · have hdrop : pyDrop ("int" ++ tyN) 3 = tyN := pyDrop_append3 'i' 'n' 't' tyN
    have hc1 : (decide (("int" ++ tyN) = "uint256") || pyStarts ("int" ++ tyN) "uint") = false := by
      rw [hint_not_uint, decide_eq_false hne256]
      rfl
    have hc2 : (decide (("int" ++ tyN) = "int256") || pyStarts ("int" ++ tyN) "int") = true := by
      rw [hint]
      exact Bool.or_true _
    unfold decode_value
    rw [if_neg hw, hc1, hc2, if_neg (by simp : ¬(false = true)), if_pos rfl,
      hdrop, hv, hN]
    show (if (v : Int) ≥ (2 : Int) ^ (N - 1) then PyVal.int ((v : Int) - 2 ^ N)
          else PyVal.int (v : Int)) =
      (if v < 2 ^ (N - 1) then PyVal.int (v : Int) else PyVal.int ((v : Int) - 2 ^ N))
    have hcast : ((2 : Int) ^ (N - 1)) = ((2 ^ (N - 1) : Nat) : Int) := by
      push_cast
      rfl
    by_cases hlt : v < 2 ^ (N - 1)
    · have hx : ¬((v : Int) ≥ (2 : Int) ^ (N - 1)) := by
        rw [hcast]
        exact not_le.mpr (by exact_mod_cast hlt)
      rw [if_neg hx, if_pos hlt]
    · have hge : (v : Int) ≥ (2 : Int) ^ (N - 1) := by
        rw [hcast]
        exact_mod_cast not_lt.mp hlt
      rw [if_pos hge, if_neg hlt]

/-- Witness for C8 at `w = "0xff"`, `N = 8`: `uint8` gives `255`, `int8`
gives `-1`. -/
theorem decode_value_int_uint_spec_witness :
    decode_value (fun s => s) "0xff" ("uint" ++ "8") = .int 255 ∧
    decode_value (fun s => s) "0xff" ("int" ++ "8") = .int (-1) := by
  have h := decode_value_int_uint_spec (fun s => s) "0xff" "8" 8 255 (by decide) (by decide)
  refine ⟨h.1, ?_⟩
  rw [h.2]
  norm_num

/-! ## Claim C9: ABI type matching -/


/-- **C9, counterexample** — the source's matcher accepts
`(uint256)[]` against `tuple` (through its extra `'(' in parsed_type`
case), which the claim's three rules reject: the parsed type is an array,
not a parenthesized type, and the declared type is not an array. -/
theorem match_abi_types_counterexample :
    match_abi_types ["(uint256)[]"] ["tuple"] = true ∧
    match_single_rule_claim "(uint256)[]".data "tuple".data = false := by
  constructor
  · simp only [match_abi_types, match_single_type]
    unfold match_single_chars
    decide
  · unfold match_single_rule_claim
    decide

/-- One-step characterization of `match_single_chars` as a disjunction of
its four cases (the array case recursing on the chopped base types). -/
theorem match_single_chars_iff (p a : List Char) :
    match_single_chars p a = true ↔
      (p = a ∨
       (['('].isPrefixOf p = true ∧ [')'].isSuffixOf p = true ∧ a = "tuple".data) ∨
       (['[', ']'].isSuffixOf p = true ∧ ['[', ']'].isSuffixOf a = true ∧
         match_single_chars (p.take (p.length - 2)) (a.take (a.length - 2)) = true) ∨
       (p.contains '(' = true ∧ a = "tuple".data)) := by
  have htup : (['[', ']'].isSuffixOf ("tuple".data)) = false := by decide
  rw [match_single_chars.eq_def]
  constructor
  · intro h
    split_ifs at h with h1 h2 h3 h4
    · exact Or.inl h1
    · simp only [Bool.and_eq_true, decide_eq_true_eq] at h2
      exact Or.inr (Or.inl ⟨h2.1.1, h2.1.2, h2.2⟩)
    · simp only [Bool.and_eq_true] at h3
      exact Or.inr (Or.inr (Or.inl ⟨h3.1, h3.2, h⟩))
    · simp only [Bool.and_eq_true, decide_eq_true_eq] at h4
      exact Or.inr (Or.inr (Or.inr ⟨h4.1, h4.2⟩))
  · intro h
    split_ifs with h1 h2 h3 h4
    · rfl
    · rfl
    · -- the recursive case: the other disjuncts are impossible here
      simp only [Bool.and_eq_true] at h3
      rcases h with h | ⟨_, _, ha⟩ | ⟨_, _, hrec⟩ | ⟨_, ha⟩
      · exact absurd h h1
      · rw [ha] at h3
        rw [htup] at h3
        exact absurd h3.2 (by simp)
      · exact hrec
      · rw [ha] at h3
        rw [htup] at h3
        exact absurd h3.2 (by simp)
    · rfl
    · rcases h with h | ⟨hs, he, ha⟩ | ⟨he1, he2, _⟩ | ⟨hc, ha⟩
      · exact absurd h h1
      · refine absurd ?_ h2
        simp only [Bool.and_eq_true, decide_eq_true_eq]
        exact ⟨⟨hs, he⟩, ha⟩
      · refine absurd ?_ h3
        simp only [Bool.and_eq_true]
        exact ⟨he1, he2⟩
      · refine absurd ?_ h4
        simp only [Bool.and_eq_true, decide_eq_true_eq]
        exact ⟨hc, ha⟩

/-- **C9, amended** — `match_abi_types` is the pairwise lifting of
`match_single_type` over equal-length lists, and a parsed type matches a
declared type iff the strings are equal, or the parsed type starts with
`(` and ends with `)` and the declared type is `tuple`, or both end in
`[]` and the base types match by the same rule recursively, **or the
parsed type contains `(` anywhere and the declared type is `tuple`** (the
source's fourth case, absent from the claim). -/
theorem match_abi_types_spec (ps as : List String) (p a : String) :
    (match_abi_types ps as = true ↔
      ps.length = as.length ∧
        ∀ pa ∈ ps.zip as, match_single_type pa.1 pa.2 = true) ∧
    (match_single_type p a = true ↔
      (p = a ∨
       (pyStarts p "(" = true ∧ pyEnds p ")" = true ∧ a = "tuple") ∨
       (pyEnds p "[]" = true ∧ pyEnds a "[]" = true ∧
         match_single_type (pyTake p (pyLen p - 2)) (pyTake a (pyLen a - 2)) = true) ∨
       (p.data.contains '(' = true ∧ a = "tuple"))) := by
  constructor
  · unfold match_abi_types
    constructor
    · intro h
      split at h
      · exact absurd h (by simp)
      · rename_i hlen
        rw [not_not] at hlen
        refine ⟨hlen, ?_⟩
        intro pa hpa
        exact List.all_eq_true.mp h pa hpa
    · rintro ⟨hlen, hall⟩
      rw [if_neg (by simp [hlen])]
      exact List.all_eq_true.mpr hall
  · have hdq : ∀ (x y : String), x.data = y.data → x = y := by
      intro x y h
      cases x
      cases y
      exact congrArg String.mk h
    have hchars := match_single_chars_iff p.data a.data
    unfold match_single_type
    rw [hchars]
    constructor
    · rintro (h | ⟨h1, h2, h3⟩ | ⟨h1, h2, h3⟩ | ⟨h1, h2⟩)
      · exact Or.inl (hdq p a h)
      · exact Or.inr (Or.inl ⟨h1, h2, hdq a "tuple" h3⟩)
      · exact Or.inr (Or.inr (Or.inl ⟨h1, h2, h3⟩))
      · exact Or.inr (Or.inr (Or.inr ⟨h1, hdq a "tuple" h2⟩))
    · rintro (h | ⟨h1, h2, h3⟩ | ⟨h1, h2, h3⟩ | ⟨h1, h2⟩)
      · exact Or.inl (congrArg String.data h)
      · exact Or.inr (Or.inl ⟨h1, h2, congrArg String.data h3⟩)
      · exact Or.inr (Or.inr (Or.inl ⟨h1, h2, h3⟩))
      · exact Or.inr (Or.inr (Or.inr ⟨h1, congrArg String.data h2⟩))

/-! ## Claim C7: idempotence of `analyze_function_calls` -/

/-- **C7, amended** — a second analysis of the same trace on the same
tracer yields the identical frame list **provided the first run leaves
the tracer's ETHDebug state (`self.ethdebug_info`/`self.ethdebug_parser`)
as it found it**; a trace that ends with an unclosed external call into a
registered contract can switch that state permanently, after which the
second run may differ structurally (see the counterexample). -/
theorem analyze_idempotent (env : TracerEnv) (st : TracerState)
    (trace : TransactionTrace) (calls : List FunctionCall) (st' : TracerState)
    (h : analyze_function_calls env st trace = .ok (calls, st'))
    (hpres : st' = st) :
    analyze_function_calls env st' trace = .ok (calls, st') := by
  rw [hpres]
  exact hpres ▸ h


/-- Witness for C7's amended theorem: a single-contract-mode run leaves
the tracer state untouched, and re-analysis reproduces the frame list. -/
theorem analyze_idempotent_witness :
    analyze_function_calls envBase stEmpty traceStopRevert =
      .ok ([frDisp], stEmpty) :=
  analyze_idempotent envBase stEmpty traceStopRevert [frDisp] stEmpty
    (by rfl) rfl

/-- **C7, counterexample** — analyzing `traceMc` (a creation-context trace
whose `CALL` into the registered contract is still open at trace end)
twice on the same tracer yields structurally different trees: the first
run returns two frames, the second three (an `Internal` frame appears,
and even the root's name changes), because the first run permanently
switched the tracer's active debug info to the callee's. -/
theorem analyze_not_idempotent_counterexample :
    ((analyze_function_calls envMc stEmpty traceMc).bind fun r1 =>
      (analyze_function_calls envMc r1.2 traceMc).map fun r2 =>
        (r1.1.map (·.name), r2.1.map (·.name))) =
      .ok (["Contract::constructor", "CALL  Target::function_0x"],
           ["Target::constructor", "foo", "CALL  Target::function_0x"]) := by
  rfl

/-! ## Claim C10: execution-context stack operations -/


/-- **C10, counterexample** — `push_context` on a well-formed address
(`0x` followed by 40 hex digits, so the source's `to_checksum_address`
normalizes it without raising) that is not in the contract registry
returns nothing and pushes nothing, unlike the claimed unconditional
push. -/
theorem push_context_counterexample :
    (push_context (fun s => s) mcEmpty
      "0xdddddddddddddddddddddddddddddddddddddddd" "CALL" 0).2 = none ∧
    ((push_context (fun s => s) mcEmpty
      "0xdddddddddddddddddddddddddddddddddddddddd" "CALL" 0).1).execution_stack = [] := by
  exact ⟨rfl, rfl⟩

/-- **C10, amended** — `push_context` pushes a new context (making it the
current one) and returns it **only when the address is registered** with
debug info; for a well-formed but unregistered address it returns nothing
and leaves the stack unchanged (a malformed address instead raises an
uncaught `ValueError` inside `to_checksum_address`, a path outside this
model).  `pop_context` removes and returns the most recently
pushed context, returning nothing and leaving the stack unchanged when it
is empty; `get_current_context` returns the most recently pushed context
(nothing when empty) without modifying the stack. -/
theorem context_stack_spec (cs : String → String) (mc : MCParser)
    (address call_type : String) (pc_offset : Nat) :
    (∀ ci, get_contract_at_address cs mc address = some ci →
      push_context cs mc address call_type pc_offset =
        ({ mc with execution_stack := mc.execution_stack ++
            [{ address := address, debug_info := ci.ethdebug_info,
               pc_offset := pc_offset, call_type := call_type }] },
         some { address := address, debug_info := ci.ethdebug_info,
                pc_offset := pc_offset, call_type := call_type })) ∧
    (get_contract_at_address cs mc address = none →
      push_context cs mc address call_type pc_offset = (mc, none)) ∧
    pop_context mc =
      ({ mc with execution_stack := mc.execution_stack.dropLast },
       mc.execution_stack.getLast?) ∧
    (mc.execution_stack = [] → pop_context mc = (mc, none)) ∧
    get_current_context mc = mc.execution_stack.getLast? := by
  refine ⟨?_, ?_, ?_, ?_, rfl⟩
  · intro ci hci
    unfold push_context
    rw [hci]
  · intro hci
    unfold push_context
    rw [hci]
  · obtain ⟨cts, es⟩ := mc
    unfold pop_context
    cases es with
    | nil => rfl
    | cons x xs =>
      cases h : (x :: xs).getLast? with
      | none => simp at h
      | some c => rfl
  · intro hes
    unfold pop_context
    rw [hes]
    rfl

/-! ## Claim C2: call-target resolution of external calls -/

/-- **C2, amended** — the frame produced by `_process_external_call`
always takes its `contract_address` from the low 20 bytes of the stack
word `stack[-2]` via `extract_address_from_stack`, regardless of the
word's magnitude and of what memory holds: the live path performs no
memory-offset re-interpretation (the helpers `is_likely_memory_offset`
and `extract_address_from_memory` exist but are not invoked here). -/
theorem process_external_call_address (env : TracerEnv) (step : TraceStep)
    (step_idx current_depth : Nat) (fr : FunctionCall)
    (h : _process_external_call env step step_idx current_depth = .ok (some fr)) :
    fr.contract_address =
      some (extract_address_from_stack env.checksum (getNeg step.stack 2)) := by
  unfold _process_external_call at h
  split at h
  · simp at h
  · cases hcd : extract_calldata_from_step step with
    | error e =>
      rw [hcd] at h
      simp [Bind.bind, Except.bind] at h
    | ok cd =>
      rw [hcd] at h
      simp only [Bind.bind, Except.bind, pure, Except.pure, Except.ok.injEq,
        Option.some.injEq] at h
      rw [← h]


set_option maxRecDepth 8192 in
/-- Witness for C2's amended theorem at the via-ir step. -/
theorem process_external_call_address_witness :
    frViaIr.contract_address =
      some (extract_address_from_stack envBase.checksum (getNeg callStep40.stack 2)) :=
  process_external_call_address envBase callStep40 0 1 frViaIr (by rfl)

set_option maxRecDepth 8192 in
/-- **C2, counterexample** — at a `CALL` whose target word `0x40` is
below the `0x1000` threshold while memory at offset `0x40` holds the real
address `0xdead…beef`, the produced frame's `contract_address` is the
literal small integer widened to 20 bytes, not the address found in
memory. -/
theorem via_ir_call_target_counterexample :
    is_likely_memory_offset "0x40" = true ∧
    extract_address_from_memory envBase.checksum viaIrMemory 0x40 =
      some "0xdeadbeefdeadbeefdeadbeefdeadbeefdeadbeef" ∧
    (analyze_function_calls envBase stEmpty traceViaIr).map
        (fun r => r.1.map (fun c => (c.call_type, c.contract_address))) =
      .ok [("entry", some "0xaaaaaaaaaaaaaaaaaaaaaaaaaaaaaaaaaaaaaaaa"),
           ("CALL", some "0x0000000000000000000000000000000000000040")] ∧
    ("0x0000000000000000000000000000000000000040" : String) ≠
      "0xdeadbeefdeadbeefdeadbeefdeadbeefdeadbeef" := by
  refine ⟨rfl, rfl, rfl, by decide⟩

/-! ## Claim C3: internal-frame creation at `JUMPDEST` -/

/-- **C3, amended** — an `Internal` frame is created at a `JUMPDEST` iff
the source context of the step yields a function name and no still-open
frame with the same name and contract address is on the builder's stack;
whether the `JUMPDEST` was actually jumped to is never consulted and no
PC comparison is made.  In particular (second conjunct) a loop back-edge
that re-executes the `JUMPDEST` while the frame of that name is open
creates no new frame: the arena is unchanged by that step. -/
theorem detect_internal_call_spec :
    (∀ (env : TracerEnv) (st : TracerState) (step : TraceStep) (step_idx : Nat)
       (cc : Option String) (frames : List FunctionCall),
      (_detect_internal_call env st step step_idx cc frames).isSome = true ↔
        ∃ context fn, get_source_context_for_step env st step cc = some context ∧
          _extract_function_name context.content = some fn ∧
          frames.any (fun fc => fc.name = fn && fc.contract_address = cc &&
            fc.exit_step = none) = false) ∧
    (∀ (env : TracerEnv) (trace : TransactionTrace) (s : BState) (i : Nat)
       (step : TraceStep) (s' : BState) (context : SourceCtx) (fn : String),
      step.op = "JUMPDEST" →
      ¬(i > 0 ∧ step.depth < s.prev_depth) →
      get_source_context_for_step env s.tracer step s.current_contract = some context →
      _extract_function_name context.content = some fn →
      (s.call_stack.map (getFr s)).any (fun fc => fc.name = fn &&
        fc.contract_address = s.current_contract && fc.exit_step = none) = true →
      processStep env trace s i step = .ok s' → s'.arena = s.arena) := by
  constructor
  · intro env st step step_idx cc frames
    unfold _detect_internal_call
    cases hctx : get_source_context_for_step env st step cc with
    | none => simp
    | some context =>
      cases hfn : _extract_function_name context.content with
      | none => simp [hfn]
      | some fn =>
        simp only [hfn]
        constructor
        · intro h
          by_cases hopen : frames.any (fun fc => fc.name = fn &&
              fc.contract_address = cc && fc.exit_step = none) = true
          · rw [if_pos hopen] at h
            simp at h
          · rw [Bool.not_eq_true] at hopen
            exact ⟨context, fn, rfl, hfn, hopen⟩
        · rintro ⟨c, f, hc, hf, hopen⟩
          rw [Option.some.injEq] at hc
          subst hc
          rw [hfn, Option.some.injEq] at hf
          subst hf
          rw [if_neg (by rw [hopen]; simp)]
          simp
  · intro env trace s i step s' context fn hop hnd hctx hfn hopen hproc
    have hdet : _detect_internal_call env s.tracer step i s.current_contract
        (s.call_stack.map (getFr s)) = none := by
      unfold _detect_internal_call
      simp only [hctx, hfn, hopen, if_true]
    have hstep : processStep env trace s i step =
        .ok ({ s with prev_depth := step.depth }) := by
      unfold processStep
      rw [if_neg hnd]
      simp only [Bind.bind, Except.bind, pure, Except.pure]
      unfold dispatchStep
      rw [hop]
      simp [isExternalType,
        show getFr { s with prev_depth := step.depth } = getFr s from rfl, hdet]
      rfl
    rw [hstep] at hproc
    injection hproc with h2
    rw [← h2]

/-- Witness for C3's amended theorem: the second `JUMPDEST` of
`traceLoop`, executed while the `foo` frame is open, leaves the arena
unchanged. -/
theorem detect_internal_call_spec_witness :
    ({ sLoop1 with prev_depth := 1 } : BState).arena = sLoop1.arena :=
  detect_internal_call_spec.2 envBase traceLoop sLoop1 1
    { pc := 5, op := "JUMPDEST", gas := 95, depth := 1, stack := [] }
    { sLoop1 with prev_depth := 1 }
    { line := 10, content := "function foo() public \x7b" } "foo"
    rfl (by decide) rfl rfl (by rfl) (by rfl)

/-- **C3, counterexample** — the `JUMPDEST` of `traceFallThrough` is
reached by straight-line execution from the previous step (`pc + 1`, a
non-jump opcode), yet an `Internal` frame named `foo` is created for it. -/
theorem jumpdest_fallthrough_counterexample :
    (traceFallThrough.steps.getD 0 default).op = "ADD" ∧
    (traceFallThrough.steps.getD 0 default).pc + 1 =
      (traceFallThrough.steps.getD 1 default).pc ∧
    (analyze_function_calls envBase stFoo traceFallThrough).map
        (fun r => r.1.map (fun c => (c.name, c.call_type, c.entry_step))) =
      .ok [("C::runtime_dispatcher", "entry", some 0),
           ("foo", "internal", some 1)] := by
  exact ⟨rfl, rfl, rfl⟩

/-! ## Claim C4: argument inheritance for internal frames -/

/-- **C4, amended** — when the `JUMPDEST` step's stack is non-empty and an
ABI entry for the function name exists, every declared parameter whose
name carries a non-`None` value in the inherited dict receives exactly
that value (at its declaration position) instead of a stack-derived one.
With an empty stack, or without an ABI entry, the argument list is left
empty even though the parent's decoded arguments are available (the
counterexample below). -/
theorem internal_args_inherit (cs : String → String) (stack : List String)
    (abi : AbiEntry) (inherited : List (String × PyVal)) (k : Nat)
    (p : AbiParam) (v : PyVal) (d : String × Option PyVal)
    (hstack : stack ≠ [])
    (hk : k < abi.inputs.length)
    (hp : abi.inputs.getD k default = p)
    (hv : dictGet? inherited p.name = some v) :
    (internal_call_args cs stack (some abi) inherited).getD k d =
      (p.name, some v) := by
  have hse : stack.isEmpty = false := by
    cases stack with
    | nil => exact absurd rfl hstack
    | cons a t => rfl
  have hinh : inherited.isEmpty = false := by
    cases inherited with
    | nil => simp [dictGet?] at hv
    | cons a t => rfl
  unfold internal_call_args
  rw [hse]
  simp only [Bool.false_eq_true, if_false]
  by_cases hcx : abi.inputs.any (fun q => has_complex_type q.type) = true
  · rw [if_pos hcx, if_pos (by rw [hinh]; rfl)]
    rw [getD_map _ _ _ _ default hk, hp, hv]
  · rw [if_neg hcx]
    have hk' : k < (enumerate abi.inputs).length := by
      unfold enumerate
      rw [length_enumerateFrom]
      exact hk
    rw [getD_map _ _ _ _ (0, default) hk']
    unfold enumerate
    rw [getD_enumerateFrom _ _ _ _ default hk, hp]
    simp only [Nat.zero_add, hv]

/-- Witness for C4's amended theorem on a one-parameter ABI entry with an
inherited value `a = 7`. -/
theorem internal_args_inherit_witness :
    (internal_call_args (fun s => s) ["0x2"]
        (some { inputs := [{ name := "a", type := "uint256" }] })
        [("a", PyVal.int 7)]).getD 0 ("", none) = ("a", some (PyVal.int 7)) :=
  internal_args_inherit (fun s => s) ["0x2"]
    { inputs := [{ name := "a", type := "uint256" }] } [("a", PyVal.int 7)]
    0 { name := "a", type := "uint256" } (PyVal.int 7) ("", none)
    (by simp) (by simp) rfl rfl

/-- **C4, counterexample** — in `traceInherit` the parent `CALL` frame to
`foo` carries the decoded argument `a = 5` and the internal `foo` frame
satisfies the claim's conditions, but because the `JUMPDEST` step's stack
is empty its argument list is left `[]`: the non-`None` parent value is
not taken over. -/
theorem inherit_empty_stack_counterexample :
    (analyze_function_calls envInherit stInherit traceInherit).map
        (fun r => r.1.map (fun c => (c.call_type, c.name, c.args))) =
      .ok [("entry", "C::runtime_dispatcher", []),
           ("CALL", "CALL  0x1234...7890::foo", [("a", some (PyVal.int 5))]),
           ("internal", "foo", [])] ∧
    (analyze_function_calls envInherit stInherit traceInherit).map
        (fun r => decide (("a", some (PyVal.int 5)) ∈ (r.1.getD 2 default).args)) =
      .ok false := by
  exact ⟨rfl, rfl⟩

/-! ## Claim C5: no stack inference for variable-width parameter types -/

/-- **C5** — if any declared parameter type is complex (tuple, array,
`string`, `bytes`), then (1) every argument the internal-call argument
assignment produces carries either the inherited value for its name or
`none` (unresolved), exactly `dictGet? inherited`, never a stack decode;
and (2) the result does not depend on the stack contents at all (any two
non-empty stacks give identical results).  Stack-position inference is
therefore attempted only when every declared type is fixed-size. -/
theorem internal_args_complex_no_stack (cs : String → String)
    (stack stack' : List String) (abi : AbiEntry)
    (inherited : List (String × PyVal))
    (hcx : abi.inputs.any (fun p => has_complex_type p.type) = true) :
    (∀ nv ∈ internal_call_args cs stack (some abi) inherited,
      nv.2 = dictGet? inherited nv.1) ∧
    (stack ≠ [] → stack' ≠ [] →
      internal_call_args cs stack (some abi) inherited =
        internal_call_args cs stack' (some abi) inherited) := by
  have hbody : ∀ (st : List String), st ≠ [] →
      internal_call_args cs st (some abi) inherited =
        (if !inherited.isEmpty then
          abi.inputs.map (fun p => (p.name, dictGet? inherited p.name))
        else []) := by
    intro st hst
    have hse : st.isEmpty = false := by
      cases st with
      | nil => exact absurd rfl hst
      | cons a t => rfl
    unfold internal_call_args
    rw [hse]
    simp only [Bool.false_eq_true, if_false]
    rw [if_pos hcx]
  constructor
  · intro nv hnv
    by_cases hst : stack = []
    · rw [hst] at hnv
      simp [internal_call_args] at hnv
    · rw [hbody stack hst] at hnv
      split_ifs at hnv with hi
      · obtain ⟨p, _, hpe⟩ := List.mem_map.mp hnv
        rw [← hpe]
      · simp at hnv
  · intro h1 h2
    rw [hbody stack h1, hbody stack' h2]

/-- Witness for C5 on an ABI entry with a dynamic-array parameter:
two different stacks yield the same arguments. -/
theorem internal_args_complex_no_stack_witness :
    internal_call_args (fun s => s) ["0x2"]
        (some { inputs := [{ name := "xs", type := "uint256[]" }] })
        [("xs", PyVal.int 1)] =
      internal_call_args (fun s => s) ["0x3", "0x4"]
        (some { inputs := [{ name := "xs", type := "uint256[]" }] })
        [("xs", PyVal.int 1)] :=
  (internal_args_complex_no_stack (fun s => s) ["0x2"] ["0x3", "0x4"]
    { inputs := [{ name := "xs", type := "uint256[]" }] } [("xs", PyVal.int 1)]
    (by rfl)).2 (by simp) (by simp)

/-! ## Claim C6: CREATE frames and the created-address lookahead -/

/-- **C6** — evaluating the pass on a 3-stack-item `CREATE` whose
lookahead window contains a `PUSH20` with a non-empty stack raises an
uncaught `AttributeError` (the source passes the one-element *list*
`[step.stack[-1]]` to `extract_address_from_stack`, which immediately
calls `.startswith` on it), so no `Create` frame with the recovered
address is ever produced; with fewer than 3 stack items no frame is
created and the pass succeeds. -/
theorem create_lookahead_crash :
    analyze_function_calls envBase stEmpty traceCreatePush = .error () ∧
    (analyze_function_calls envBase stEmpty traceCreateShort).map
        (fun r => r.1.map (fun c => c.call_type)) = .ok ["entry"] := by
  exact ⟨rfl, rfl⟩

/-- Witness for C10 at the one-contract registry and an empty stack:
push succeeds and returns the pushed context; pop and current observe it. -/
theorem context_stack_spec_witness :
    push_context (fun s => s)
        { contracts := fun a =>
            if a = "0xcccccccccccccccccccccccccccccccccccccccc" then some targetCi else none
          execution_stack := [] }
        "0xcccccccccccccccccccccccccccccccccccccccc" "CALL" 0 =
      ({ contracts := fun a =>
            if a = "0xcccccccccccccccccccccccccccccccccccccccc" then some targetCi else none
         execution_stack :=
           [{ address := "0xcccccccccccccccccccccccccccccccccccccccc",
              debug_info := targetCi.ethdebug_info, pc_offset := 0, call_type := "CALL" }] },
       some { address := "0xcccccccccccccccccccccccccccccccccccccccc",
              debug_info := targetCi.ethdebug_info, pc_offset := 0, call_type := "CALL" }) := by
  exact (context_stack_spec (fun s => s) _ _ "CALL" 0).1 targetCi rfl

end Walnut
